import Mathlib

/-!
# knowu: a verification development

A shallow embedding of `src/index.js` (the `knowu` fingerprinting library) and
theorems about its probes, its aggregator `recordFingerprint` and the `Knowu`
class (`constructor`, `record`, `send`).

JavaScript values are a tree-shaped datatype, the browser is an explicit
environment record (every capability the source reads is a field that may be
absent), exceptions are `Except JSError`, and the observable effects of the
`Knowu` class (calls of `record()`, calls of `fetch`, registered listeners) are
kept in an explicit world state.
-/

namespace KnowuJS

/-! ## JavaScript values -/

/-- JavaScript values, as far as the library handles them. Numbers are split in
integers (`num`, with `-0` identified with `0`), `NaN`, and every other double
(`dbl`, given by its IEEE bit pattern: a non-integral or infinite double, never
zero and never `NaN`). Values are finite trees: no cycles, no `BigInt`. -/
inductive JSVal where
  | undefined : JSVal
  | null : JSVal
  | bool (b : Bool) : JSVal
  | num (n : Int) : JSVal
  | nan : JSVal
  | dbl (bits : Nat) : JSVal
  | str (s : String) : JSVal
  | arr (items : List JSVal) : JSVal
  | obj (fields : List (String × JSVal)) : JSVal

/-- Exceptions thrown by the platform. -/
inductive JSError where
  | referenceError (name : String) : JSError
  | typeError (msg : String) : JSError
  | other (msg : String) : JSError

/-- JavaScript truthiness (`ToBoolean`). -/
def JSVal.truthy : JSVal → Bool
  | .undefined => false
  | .null => false
  | .bool b => b
  | .num n => n != 0
  | .nan => false
  | .dbl _ => true
  | .str s => s != ""
  | .arr _ => true
  | .obj _ => true

/-- The `a || b` operator on values that are already evaluated. -/
def JSVal.orElse (a b : JSVal) : JSVal := if a.truthy then a else b

/-- Property read `v.k` on an object value; `undefined` when the property is missing
or the value is a primitive. -/
def JSVal.getProp (v : JSVal) (k : String) : JSVal :=
  match v with
  | .obj fields => (fields.lookup k).getD .undefined
  | _ => .undefined

/-- The own keys of an object value, in insertion order. -/
def JSVal.keys : JSVal → List String
  | .obj fields => fields.map Prod.fst
  | _ => []

/-- Whether a value is `null`. -/
def JSVal.isNull : JSVal → Bool
  | .null => true
  | _ => false

/-- The test `v === 0` (true for `0` and `-0` only). -/
def JSVal.isZero : JSVal → Bool
  | .num 0 => true
  | _ => false

/-- An array of strings as a JavaScript value. -/
def JSVal.ofStrings (xs : List String) : JSVal := .arr (xs.map JSVal.str)

/-! ## Typography probe: `getFontsFingerprint` -/

/-- The list `baseFonts` of `getFontsFingerprint`. -/
def baseFonts : List String := ["monospace", "sans-serif", "serif"]

/-- The list `fonts` of `getFontsFingerprint`. -/
def fonts : List String :=
  ["Arial", "Verdana", "Times New Roman", "Courier New", "Comic Sans MS", "Georgia",
   "Trebuchet MS"]

/-- The template literal of line 101: the candidate font, quoted, followed by the
generic family it falls back to. -/
def fontWithFallback (font base : String) : String :=
  "\"" ++ font ++ "\"," ++ base

/-- The object `defaultWidths` after `baseFonts.forEach(font => defaultWidths[font] = getWidth(font))`,
as an association list (a later assignment of the same key replaces the earlier one). -/
def defaultWidths (getWidth : String → Int) : List (String × Int) :=
  baseFonts.foldl (fun d font => (d.filter (fun p => p.1 != font)) ++ [(font, getWidth font)]) []

/-- The callback of `baseFonts.some(...)`: the strict inequality
`getWidth(candidate with fallback base) !== defaultWidths[base]`; a missing key reads as
`undefined`, which differs from every number. -/
def detectedWith (getWidth : String → Int) (font base : String) : Bool :=
  some (getWidth (fontWithFallback font base)) != (defaultWidths getWidth).lookup base

/-- The body of `getFontsFingerprint` once `document.body` is there, for the width
measurement `getWidth` (the `offsetWidth` of the scratch `span`, an integer):
`fonts.forEach` pushes each detected candidate onto `available`. -/
def fontsAvailable (getWidth : String → Int) : List String :=
  fonts.foldl
    (fun available font =>
      if baseFonts.any (fun base => detectedWith getWidth font base) then available ++ [font]
      else available)
    []

/-! ## Media-feature probes -/

/-- The `colorGamut` expression of `recordFingerprint` (lines 183-185), for the truth
assignment `mm` of `matchMedia(q).matches`. -/
def colorGamut (mm : String → Bool) : JSVal :=
  if mm "(color-gamut: rec2020)" then .str "rec2020"
  else if mm "(color-gamut: p3)" then .str "p3"
  else if mm "(color-gamut: srgb)" then .str "srgb"
  else .null

/-- The `contrast` expression (lines 186-188). -/
def contrast (mm : String → Bool) : JSVal :=
  if mm "(prefers-contrast: more)" then .str "more"
  else if mm "(prefers-contrast: less)" then .str "less"
  else if mm "(prefers-contrast: no-preference)" then .str "none"
  else .null

/-- The `forcedColors` expression (lines 189-190). -/
def forcedColors (mm : String → Bool) : JSVal :=
  if mm "(forced-colors: active)" then .bool true
  else if mm "(forced-colors: none)" then .bool false
  else .null

/-- The `invertedColors` expression (lines 191-192). -/
def invertedColors (mm : String → Bool) : JSVal :=
  if mm "(inverted-colors: inverted)" then .bool true
  else if mm "(inverted-colors: none)" then .bool false
  else .null

/-- The `reducedMotion` expression (lines 221-222). -/
def reducedMotion (mm : String → Bool) : JSVal :=
  if mm "(prefers-reduced-motion: reduce)" then .bool true
  else if mm "(prefers-reduced-motion: no-preference)" then .bool false
  else .null

/-- The `reducedTransparency` expression (lines 223-224). -/
def reducedTransparency (mm : String → Bool) : JSVal :=
  if mm "(prefers-reduced-transparency: reduce)" then .bool true
  else if mm "(prefers-reduced-transparency: no-preference)" then .bool false
  else .null

/-- The label of the first predicate of an ordered list that matches, `null` when none
does: the reading of the preference probes in the specification. -/
def firstMatch (mm : String → Bool) : List (String × JSVal) → JSVal
  | [] => .null
  | (q, label) :: rest => if mm q then label else firstMatch mm rest

/-- The template literal of line 196, the query for the bound `i`. -/
def maxMonochromeQuery (i : Nat) : String :=
  "(max-monochrome: " ++ toString i ++ ")"

/-- The loop `for (let i = 0; i <= 32; i++)` of the `monochrome` probe, entered at `i`
with `fuel` iterations left (`fuel = 33 - i`); falling out of the loop returns `null`. -/
def monochromeLoop (mm : String → Bool) (i : Nat) : Nat → JSVal
  | 0 => .null
  | fuel + 1 =>
    if mm (maxMonochromeQuery i) then .num (i : Int) else monochromeLoop mm (i + 1) fuel

/-- The `monochrome` expression (lines 193-199). -/
def monochrome (mm : String → Bool) : JSVal :=
  if !mm "(min-monochrome: 0)" then .null else monochromeLoop mm 0 33

/-! ## Storage probes -/

/-- The expressions of lines 201 and 202:
`try { return !!window.localStorage; } catch (e) { return true; }`, for the outcome of
reading the storage property. -/
def storageFlag (read : Except JSError JSVal) : JSVal :=
  match read with
  | .ok v => .bool v.truthy
  | .error _ => .bool true

/-! ## Byte-order probe -/

/-- Byte order of the host. -/
inductive Endian where
  | little : Endian
  | big : Endian

/-- The IEEE 754 single-precision bit pattern with the given sign bit, biased exponent
and 23-bit fraction. -/
def float32Bits (sign biasedExponent fraction : Nat) : Nat :=
  sign * 2 ^ 31 + biasedExponent * 2 ^ 23 + fraction

/-- The bit pattern of the float `1.0`: sign `0`, exponent `0` (biased `127`), fraction `0`. -/
def float32One : Nat := float32Bits 0 127 0

/-- The four bytes of a 32-bit word in memory order, for the host's byte order. -/
def wordBytes (e : Endian) (w : Nat) : List Nat :=
  match e with
  | .little => [w % 256, w / 2 ^ 8 % 256, w / 2 ^ 16 % 256, w / 2 ^ 24 % 256]
  | .big => [w / 2 ^ 24 % 256, w / 2 ^ 16 % 256, w / 2 ^ 8 % 256, w % 256]

/-- The 32-bit word held by four bytes in memory order, for the host's byte order. -/
def bytesWord (e : Endian) (bytes : List Nat) : Nat :=
  match e with
  | .little => bytes.getD 0 0 + bytes.getD 1 0 * 2 ^ 8 + bytes.getD 2 0 * 2 ^ 16
      + bytes.getD 3 0 * 2 ^ 24
  | .big => bytes.getD 0 0 * 2 ^ 24 + bytes.getD 1 0 * 2 ^ 16 + bytes.getD 2 0 * 2 ^ 8
      + bytes.getD 3 0

/-- The store `f32[0] = 1.0` into a buffer: the first four bytes are replaced. -/
def storeFloat32One (e : Endian) (buffer : List Nat) : List Nat :=
  wordBytes e float32One ++ buffer.drop 4

/-- The load `u32[0]` from a buffer: the first four bytes, in native order. -/
def loadUint32 (e : Endian) (buffer : List Nat) : Nat :=
  bytesWord e (buffer.take 4)

/-- The value `u32[0]` read at line 211, after `new ArrayBuffer(8)` and `f32[0] = 1.0`. -/
def architectureWord (e : Endian) : Nat :=
  loadUint32 e (storeFloat32One e (List.replicate 8 0))

/-- The `architecture` expression (lines 205-215); `typedArrays` is the host's byte order
when `ArrayBuffer`, `Float32Array` and `Uint32Array` exist, and `none` when one of them is
missing (the `try` block throws and the `catch` returns `null`). -/
def architecture (typedArrays : Option Endian) : JSVal :=
  match typedArrays with
  | none => .null
  | some e => if architectureWord e ≠ 0 then .str "little" else .str "big"

/-! ## DOM-blocker probe -/

/-- The part of `window.getComputedStyle(el)` the probe reads. -/
structure ComputedStyle where
  display : String
  visibility : String
  opacity : String

/-- The list `selectors` of `getDOMBlockers`. -/
def selectors : List String :=
  ["#ad", ".ad", "[id*='ad-']", "[class*='ad_']", "[class*='advert']"]

/-- The test of line 152 on one element's computed style. -/
def isHidden (parseFloat : String → JSVal) (style : ComputedStyle) : Bool :=
  style.display == "none" || style.visibility == "hidden" || (parseFloat style.opacity).isZero

/-- The counter `hidden` after `elems.forEach(...)` (lines 149-155). -/
def countHidden (parseFloat : String → JSVal) (elems : List ComputedStyle) : Nat :=
  elems.foldl (fun hidden el => if isHidden parseFloat el then hidden + 1 else hidden) 0

/-- The test of line 156, `elems.length && hidden / elems.length > 0.5`: the quotient of
the two integers is rounded to a double by `roundDouble` before it is compared with `0.5`. -/
def moreThanHalf (roundDouble : ℚ → ℚ) (hidden total : Nat) : Bool :=
  total != 0 && decide (roundDouble ((hidden : ℚ) / (total : ℚ)) > 1 / 2)

/-- The function `getDOMBlockers` (lines 141-160): `querySelectorAll` gives, for a selector,
the computed styles of the elements it matches. -/
def getDOMBlockers (roundDouble : ℚ → ℚ) (parseFloat : String → JSVal)
    (querySelectorAll : String → List ComputedStyle) : List String :=
  selectors.foldl
    (fun blocked selector =>
      let elems := querySelectorAll selector
      if elems.length > 0 then
        if moreThanHalf roundDouble (countHidden parseFloat elems) elems.length then
          blocked ++ [selector]
        else blocked
      else blocked)
    []

/-! ## The browser environment -/

/-- The global `screen`. -/
structure Screen where
  width : JSVal
  height : JSVal
  colorDepth : JSVal
  availWidth : JSVal
  availHeight : JSVal

/-- The object `Intl.DateTimeFormat().resolvedOptions()`. -/
structure DateTimeOptions where
  timeZone : JSVal
  locale : JSVal

/-- A WebGL rendering context, as far as the probes query it: `debugInfo` holds the
parameters `UNMASKED_VENDOR_WEBGL` and `UNMASKED_RENDERER_WEBGL` when the extension
`WEBGL_debug_renderer_info` is there. -/
structure WebGLContext where
  debugInfo : Option (JSVal × JSVal)
  vendor : JSVal
  renderer : JSVal
  version : JSVal
  supportedExtensions : JSVal

/-- The global `navigator`; `plugins` holds the plugin names when `navigator.plugins` is
truthy. -/
structure Navigator where
  userAgent : JSVal
  languages : JSVal
  language : JSVal
  plugins : Option (List JSVal)
  hardwareConcurrency : JSVal
  deviceMemory : JSVal
  cpuClass : JSVal
  platform : JSVal
  pdfViewerEnabled : JSVal
  maxTouchPoints : JSVal
  vendor : JSVal

/-- The global `document`. `body` is `none` when `document.body` is `null`; otherwise it
gives the `offsetWidth` of the scratch `span` for a `fontFamily`. `anchorSourceId` and
`anchorSourceIdLower` are the properties `attributionSourceId` and `attributionsourceid`
of a fresh `a` element; `touchEvent` tells whether `createEvent("TouchEvent")` succeeds. -/
structure Document where
  body : Option (String → Int)
  querySelectorAll : String → List ComputedStyle
  anchorSourceId : JSVal
  anchorSourceIdLower : JSVal
  touchEvent : Bool

/-- The outputs of the fixed `Math` calls of lines 245-252, as the platform computes them. -/
structure MathValues where
  acos : JSVal
  asin : JSVal
  atan : JSVal
  sin : JSVal
  cos : JSVal
  tan : JSVal
  exp : JSVal
  log : JSVal

/-- The payload handed to `fetch` as its second argument. -/
structure FetchInit where
  method : String
  headers : List (String × String)
  body : JSVal
  mode : String

/-- Everything of the platform the library reads. A global that may be missing is an
`Option`; a read or a `try` body that may throw is an `Except`.

* `canvas`: outcome of the `try` body of `getCanvasFingerprint` (the data URL);
* `webglContext`: outcome of creating the canvas and asking for a `webgl` or
  `experimental-webgl` context (`none` when both are falsy);
* `offlineAudio`: `none` when neither `OfflineAudioContext` nor its `webkit` variant
  exists, otherwise the outcome of the rendering: the sum of the absolute samples and
  `context.baseLatency`;
* `audioContext`: `none` when `window.AudioContext` is falsy, otherwise the outcome of
  creating a context and reading its `baseLatency`;
* `roundDouble`: rounding of a rational quotient to a double;
* `stringify`: `JSON.stringify`, total on tree-shaped values;
* `fetch`: the settled outcome of the promise `fetch(url, init)`. -/
structure Env where
  canvas : Except JSError JSVal
  webglContext : Except JSError (Option WebGLContext)
  document : Option Document
  screen : Option Screen
  intl : Option DateTimeOptions
  navigator : Navigator
  offlineAudio : Option (Except JSError (JSVal × JSVal))
  matchMedia : Option (String → Bool)
  openDatabase : JSVal
  localStorage : Except JSError JSVal
  sessionStorage : Except JSError JSVal
  typedArrays : Option Endian
  applePaySession : JSVal
  ontouchstart : Bool
  chrome : JSVal
  safari : JSVal
  opera : JSVal
  math : MathValues
  audioContext : Option (Except JSError JSVal)
  now : JSVal
  roundDouble : ℚ → ℚ
  parseFloat : String → JSVal
  stringify : JSVal → JSVal
  fetch : JSVal → FetchInit → Except JSError JSVal

/-! ## The remaining probes -/

/-- The function `getCanvasFingerprint` (lines 29-46). -/
def getCanvasFingerprint (env : Env) : JSVal :=
  match env.canvas with
  | .ok url => url
  | .error _ => .null

/-- The function `getWebGLFingerprint` (lines 48-66). -/
def getWebGLFingerprint (env : Env) : JSVal :=
  match env.webglContext with
  | .ok (some gl) =>
    .obj [("vendor", match gl.debugInfo with
                     | some d => d.1
                     | none => gl.vendor),
          ("renderer", match gl.debugInfo with
                     | some d => d.2
                     | none => gl.renderer),
          ("version", gl.version)]
  | .ok none => .null
  | .error _ => .null

/-- The function `getWebGLExtensions` (lines 68-76). -/
def getWebGLExtensions (env : Env) : JSVal :=
  match env.webglContext with
  | .ok (some gl) => gl.supportedExtensions
  | .ok none => .arr []
  | .error _ => .arr []

/-- The function `getFontsFingerprint` (lines 78-105): without a `document` or a
`document.body` the first `getWidth` throws, and nothing catches it. -/
def getFontsFingerprint (env : Env) : Except JSError JSVal :=
  match env.document with
  | none => .error (.referenceError "document")
  | some doc =>
    match doc.body with
    | none => .error (.typeError "document.body is null")
    | some getWidth => .ok (JSVal.ofStrings (fontsAvailable getWidth))

/-- The function `getPluginsFingerprint` (lines 107-115). -/
def getPluginsFingerprint (env : Env) : JSVal :=
  match env.navigator.plugins with
  | some names => .arr (names.foldl (fun plugins name => plugins ++ [name]) [])
  | none => .arr []

/-- The function `getAudioFingerprint` (lines 117-139). -/
def getAudioFingerprint (env : Env) : JSVal :=
  match env.offlineAudio with
  | none => .null
  | some (.ok (sum, baseLatency)) =>
    .obj [("fingerprint", sum), ("baseLatency", baseLatency.orElse .null)]
  | some (.error _) => .null

/-- The function `getDOMBlockers` in the environment: the first `document.querySelectorAll`
throws when there is no `document`. -/
def getDOMBlockersIn (env : Env) : Except JSError JSVal :=
  match env.document with
  | none => .error (.referenceError "document")
  | some doc =>
    .ok (JSVal.ofStrings (getDOMBlockers env.roundDouble env.parseFloat doc.querySelectorAll))

/-- The global function `matchMedia`; calling a missing global is a `ReferenceError`. -/
def getMatchMedia (env : Env) : Except JSError (String → Bool) :=
  match env.matchMedia with
  | some mm => .ok mm
  | none => .error (.referenceError "matchMedia")

/-- The global `screen`. -/
def getScreen (env : Env) : Except JSError Screen :=
  match env.screen with
  | some s => .ok s
  | none => .error (.referenceError "screen")

/-- The call `Intl.DateTimeFormat().resolvedOptions()`. -/
def getDateTimeOptions (env : Env) : Except JSError DateTimeOptions :=
  match env.intl with
  | some o => .ok o
  | none => .error (.referenceError "Intl")

/-- The `privateClickMeasurement` expression (lines 217-220). -/
def privateClickMeasurement (env : Env) : Except JSError JSVal :=
  match env.document with
  | none => .error (.referenceError "document")
  | some doc => .ok ((doc.anchorSourceId.orElse doc.anchorSourceIdLower).orElse .null)

/-- The `dateTimeLocale` expression (lines 225-227). -/
def dateTimeLocale (env : Env) : JSVal :=
  match getDateTimeOptions env with
  | .ok o => o.locale
  | .error _ => .null

/-- The `touchSupport` expression (lines 228-234). -/
def touchSupport (env : Env) : JSVal :=
  .obj [("maxTouchPoints", env.navigator.maxTouchPoints.orElse (.num 0)),
        ("touchEvent", match env.document with
                       | some doc => .bool doc.touchEvent
                       | none => .bool false),
        ("touchStart", .bool env.ontouchstart)]

/-- The strict equality `v === "OPR/"`. -/
def JSVal.isOPR : JSVal → Bool
  | .str s => s == "OPR/"
  | _ => false

/-- The test `navigator.userAgent.indexOf("OPR/") !== -1`. On a string `indexOf` looks for
a substring, on an array for an element strictly equal to the argument; the other values
have no `indexOf`, and calling it is a `TypeError`. -/
def userAgentHasOPR (env : Env) : Except JSError Bool :=
  match env.navigator.userAgent with
  | .str ua => .ok (decide ("OPR/".toList <:+: ua.toList))
  | .arr items => .ok (items.any JSVal.isOPR)
  | _ => .error (.typeError "navigator.userAgent.indexOf is not a function")

/-- The condition of line 240, `window.opera || navigator.userAgent.indexOf("OPR/") !== -1`:
the right operand is evaluated only when `window.opera` is falsy. -/
def isOpera (env : Env) : Except JSError Bool :=
  if env.opera.truthy then .ok true else userAgentHasOPR env

/-- The `vendorFlavors` expression (lines 236-242). -/
def vendorFlavors (env : Env) : Except JSError JSVal :=
  let flavors : List String := []
  let flavors :=
    if env.chrome.truthy && (env.chrome.getProp "webstore").truthy then flavors ++ ["chrome"]
    else flavors
  let flavors :=
    match env.safari with
    | .undefined => flavors
    | _ => flavors ++ ["safari"]
  match isOpera env with
  | .error e => .error e
  | .ok true => .ok (JSVal.ofStrings (flavors ++ ["opera"]))
  | .ok false => .ok (JSVal.ofStrings flavors)

/-- The `math` expression (lines 243-254). -/
def mathFingerprint (env : Env) : JSVal :=
  .obj [("acos", env.math.acos), ("asin", env.math.asin), ("atan", env.math.atan),
        ("sin", env.math.sin), ("cos", env.math.cos), ("tan", env.math.tan),
        ("exp", env.math.exp), ("log", env.math.log)]

/-- The `audioBaseLatency` expression (lines 255-266). -/
def audioBaseLatency (env : Env) : JSVal :=
  match env.audioContext with
  | none => .null
  | some (.ok baseLatency) => baseLatency.orElse .null
  | some (.error _) => .null

/-- The `applePay` expression (line 216). -/
def applePay (env : Env) : JSVal :=
  match env.applePaySession with
  | .undefined => .str "unavailable"
  | _ => .str "available"

/-! ## The aggregator -/

/-- The object literal of `recordFingerprint` (lines 165-269), given the values of the
property expressions that may throw: `fontsFp`, the globals `scr` and `mm`, the resolved
date-time `options`, `domBlockers`, `pcm` (private click measurement) and `flavors`. -/
def fingerprintObject (env : Env) (fontsFp : JSVal) (scr : Screen) (options : DateTimeOptions)
    (mm : String → Bool) (domBlockers pcm flavors : JSVal) : JSVal :=
  .obj [
    ("canvas", getCanvasFingerprint env),
    ("webgl", getWebGLFingerprint env),
    ("webglExtensions", getWebGLExtensions env),
    ("fonts", fontsFp),
    ("screen", .obj [("resolution", .arr [scr.width, scr.height]),
                     ("colorDepth", scr.colorDepth),
                     ("availResolution", .arr [scr.availWidth, scr.availHeight])]),
    ("timezone", options.timeZone.orElse (.str "unknown")),
    ("languages", env.navigator.languages.orElse (.arr [env.navigator.language])),
    ("plugins", getPluginsFingerprint env),
    ("audio", getAudioFingerprint env),
    ("hardwareConcurrency", env.navigator.hardwareConcurrency.orElse .null),
    ("deviceMemory", env.navigator.deviceMemory.orElse .null),
    ("cpuClass", env.navigator.cpuClass.orElse .null),
    ("platform", env.navigator.platform.orElse .null),
    ("colorGamut", colorGamut mm),
    ("contrast", contrast mm),
    ("forcedColors", forcedColors mm),
    ("invertedColors", invertedColors mm),
    ("monochrome", monochrome mm),
    ("openDatabase", .bool env.openDatabase.truthy),
    ("localStorage", storageFlag env.localStorage),
    ("sessionStorage", storageFlag env.sessionStorage),
    ("domBlockers", domBlockers),
    ("pdfViewerEnabled", env.navigator.pdfViewerEnabled.orElse .null),
    ("architecture", architecture env.typedArrays),
    ("applePay", applePay env),
    ("privateClickMeasurement", pcm),
    ("reducedMotion", reducedMotion mm),
    ("reducedTransparency", reducedTransparency mm),
    ("dateTimeLocale", dateTimeLocale env),
    ("touchSupport", touchSupport env),
    ("vendor", env.navigator.vendor.orElse .null),
    ("vendorFlavors", flavors),
    ("math", mathFingerprint env),
    ("audioBaseLatency", audioBaseLatency env),
    ("screenResolution", .arr [scr.width, scr.height]),
    ("recorded_at", env.now)]

/-- The function `recordFingerprint` (lines 164-270): the properties of the object literal
are evaluated top-down, and the first expression that throws rejects the promise. The
expressions that may throw are, in source order: `fonts` (line 169), `screen` (170),
`timezone` (175), the first `matchMedia` (183), `domBlockers` (203),
`privateClickMeasurement` (217) and `vendorFlavors` (236). -/
def recordFingerprint (env : Env) : Except JSError JSVal :=
  match getFontsFingerprint env with
  | .error e => .error e
  | .ok fontsFp =>
  match getScreen env with
  | .error e => .error e
  | .ok scr =>
  match getDateTimeOptions env with
  | .error e => .error e
  | .ok options =>
  match getMatchMedia env with
  | .error e => .error e
  | .ok mm =>
  match getDOMBlockersIn env with
  | .error e => .error e
  | .ok domBlockers =>
  match privateClickMeasurement env with
  | .error e => .error e
  | .ok pcm =>
  match vendorFlavors env with
  | .error e => .error e
  | .ok flavors => .ok (fingerprintObject env fontsFp scr options mm domBlockers pcm flavors)

/-- The signal keys of the object literal of `recordFingerprint`, in source order. -/
def signalKeys : List String :=
  ["canvas", "webgl", "webglExtensions", "fonts", "screen", "timezone", "languages",
   "plugins", "audio", "hardwareConcurrency", "deviceMemory", "cpuClass", "platform",
   "colorGamut", "contrast", "forcedColors", "invertedColors", "monochrome", "openDatabase",
   "localStorage", "sessionStorage", "domBlockers", "pdfViewerEnabled", "architecture",
   "applePay", "privateClickMeasurement", "reducedMotion", "reducedTransparency",
   "dateTimeLocale", "touchSupport", "vendor", "vendorFlavors", "math", "audioBaseLatency",
   "screenResolution", "recorded_at"]

/-! ## The `Knowu` class -/

/-- An instance of the class `Knowu`: the two properties the constructor sets. -/
structure Knowu where
  baseUrl : JSVal
  options : JSVal

/-- The observable effects of the class: a call of the method `record()` and a call of
the global `fetch`. -/
inductive Effect where
  | recordCall : Effect
  | fetchCall (url : JSVal) (init : FetchInit) : Effect

/-- Whether an effect is a call of `record()`. -/
def Effect.isRecord : Effect → Bool
  | .recordCall => true
  | .fetchCall _ _ => false

/-- Whether an effect is a call of `fetch`. -/
def Effect.isFetch : Effect → Bool
  | .recordCall => false
  | .fetchCall _ _ => true

/-- The closures the library hands to `addEventListener`: the arrow function of
lines 279-281, closed over `this`. `owner` is the identity of the closure (two instances
built from the same arguments are still two objects). -/
inductive Callback where
  | recordThenSend (owner : Nat) (self : Knowu) : Callback

/-- The identity of a closure. -/
def Callback.owner : Callback → Nat
  | .recordThenSend owner _ => owner

/-- A listener registered on `window`; `once` is the `once` option of
`addEventListener`. -/
structure Listener where
  type : String
  callback : Callback
  once : Bool

/-- A continuation waiting for a promise of the library to settle.

* `thenSend`: the reaction `fp => this.send(fp)` of line 280, waiting for the promise of
  `this.record()`, which settles to `outcome`;
* `resumeSend`: the rest of `send` after `fp = await this.record()` (line 289). -/
inductive Job where
  | thenSend (owner : Nat) (self : Knowu) (outcome : Except JSError JSVal) : Job
  | resumeSend (owner : Nat) (self : Knowu) (outcome : Except JSError JSVal) : Job

/-- The closure a continuation belongs to. -/
def Job.owner : Job → Nat
  | .thenSend owner _ _ => owner
  | .resumeSend owner _ _ => owner

/-- The state the class acts on: the listeners registered on `window`, the continuations
that wait for a promise, the log of effects so far, each with the closure that caused it,
and the number of closures created so far. -/
structure World where
  nextId : Nat
  listeners : List Listener
  pending : List Job
  log : List (Nat × Effect)

/-- The second argument of `fetch` at lines 291-296. -/
def fetchInit (env : Env) (fp : JSVal) : FetchInit :=
  { method := "POST"
    headers := [("Content-Type", "application/json")]
    body := env.stringify fp
    mode := "no-cors" }

/-- The method `record()` (lines 284-286): what the promise settles to, and the log. -/
def Knowu.record (env : Env) (_self : Knowu) (log : List Effect) :
    Except JSError JSVal × List Effect :=
  (recordFingerprint env, log ++ [Effect.recordCall])

/-- The method `send(fp)` (lines 287-297); a call without argument passes `undefined`. -/
def Knowu.send (env : Env) (self : Knowu) (fp : JSVal) (log : List Effect) :
    Except JSError JSVal × List Effect :=
  let recorded : Except JSError JSVal × List Effect :=
    if !fp.truthy then self.record env log else (.ok fp, log)
  match recorded.1 with
  | .error e => (.error e, recorded.2)
  | .ok fp =>
    (env.fetch self.baseUrl (fetchInit env fp),
     recorded.2 ++ [Effect.fetchCall self.baseUrl (fetchInit env fp)])

/-- The constructor (lines 275-283); an omitted `options` is `undefined` and takes the
default `{}`, and reading a property of `null` is a `TypeError`. The listener is
registered without options, so not as a one-time listener. -/
def Knowu.construct (baseUrl options : JSVal) (w : World) : Except JSError (Knowu × World) :=
  let options :=
    match options with
    | .undefined => JSVal.obj []
    | o => o
  let self : Knowu := { baseUrl := baseUrl, options := options }
  match options with
  | .null => .error (.typeError "cannot read properties of null (reading sendOnLoad)")
  | _ =>
    if (options.getProp "sendOnLoad").truthy then
      .ok (self, { w with
        nextId := w.nextId + 1
        listeners := w.listeners ++
          [{ type := "load", callback := .recordThenSend w.nextId self, once := false }] })
    else .ok (self, w)

/-- The continuation a callback leaves behind: the reaction registered by `.then(...)` on
the promise of `this.record()`. -/
def Callback.job (env : Env) : Callback → Job
  | .recordThenSend owner self => .thenSend owner self (self.record env []).1

/-- The effects a callback has while it runs: `this.record()` is called at once. -/
def Callback.effects (env : Env) : Callback → List Effect
  | .recordThenSend _ self => (self.record env []).2

/-- Running a registered callback, `this.record().then(fp => this.send(fp))`: `record()`
is called now, and `send` waits for its promise. -/
def runCallback (env : Env) (cb : Callback) (w : World) : World :=
  { w with
    log := w.log ++ (cb.effects env).map (fun e => (cb.owner, e))
    pending := w.pending ++ [cb.job env] }

/-- Dispatching one event of the given type on `window`: every listener of that type
runs, in registration order, and the listeners registered with `once` are removed. -/
def dispatchEvent (env : Env) (type : String) (w : World) : World :=
  (w.listeners.filter (fun l => l.type == type)).foldl
    (fun v l => runCallback env l.callback v)
    { w with listeners := w.listeners.filter (fun l => !(l.type == type && l.once)) }

/-- The effects a continuation has when it runs.

* `thenSend` on a rejected promise: the `then` callback does not run;
* `thenSend` on a record `fp`: `this.send(fp)` starts; a truthy `fp` goes straight to
  `fetch`, a falsy one calls `this.record()` and waits again;
* `resumeSend`: the awaited `record()` gave `fp` and `fetch` is called, or it rejected and
  so does `send`. -/
def Job.effects (env : Env) : Job → List Effect
  | .thenSend _ _ (.error _) => []
  | .thenSend _ self (.ok fp) =>
    if fp.truthy then (self.send env fp []).2 else (self.record env []).2
  | .resumeSend _ self (.ok fp) => [Effect.fetchCall self.baseUrl (fetchInit env fp)]
  | .resumeSend _ _ (.error _) => []

/-- The continuations a continuation leaves behind when it runs. -/
def Job.next (env : Env) : Job → List Job
  | .thenSend _ _ (.error _) => []
  | .thenSend owner self (.ok fp) =>
    if fp.truthy then [] else [.resumeSend owner self (self.record env []).1]
  | .resumeSend _ _ _ => []

/-- Running a continuation that was taken out of the pending ones. -/
def runJob (env : Env) (job : Job) (w : World) : World :=
  { w with
    log := w.log ++ (job.effects env).map (fun e => (job.owner, e))
    pending := w.pending ++ job.next env }

/-- Taking the `i`-th pending continuation out of the list. -/
def pick : Nat → List Job → Option (Job × List Job)
  | _, [] => none
  | 0, job :: rest => some (job, rest)
  | i + 1, job :: rest =>
    match pick i rest with
    | some (found, others) => some (found, job :: others)
    | none => none

/-- What happens next in the page: a `load` event is dispatched on `window`, or the
`i`-th pending continuation runs (its promise has settled). -/
inductive Action where
  | load : Action
  | settle (i : Nat) : Action

/-- Whether an action is a `load` event. -/
def Action.isLoad : Action → Bool
  | .load => true
  | .settle _ => false

/-- One action. -/
def step (env : Env) (a : Action) (w : World) : World :=
  match a with
  | .load => dispatchEvent env "load" w
  | .settle i =>
    match pick i w.pending with
    | some (job, rest) => runJob env job { w with pending := rest }
    | none => w

/-- A sequence of actions, one after the other. -/
def run (env : Env) (actions : List Action) (w : World) : World :=
  actions.foldl (fun v a => step env a v) w

/-- The world before the library is used. -/
def World.initial : World := { nextId := 0, listeners := [], pending := [], log := [] }

/-- The number of calls of `record()` the closure `owner` caused. -/
def recordsBy (owner : Nat) (log : List (Nat × Effect)) : Nat :=
  log.countP (fun e => e.1 == owner && e.2.isRecord)

/-- The number of calls of `fetch` the closure `owner` caused. -/
def fetchesBy (owner : Nat) (log : List (Nat × Effect)) : Nat :=
  log.countP (fun e => e.1 == owner && e.2.isFetch)

/-- Every closure the world mentions was created in it: the identities in the listeners,
the pending continuations and the log are below `nextId`. -/
def World.wellFormed (w : World) : Bool :=
  w.listeners.all (fun l => decide (l.callback.owner < w.nextId))
    && w.pending.all (fun j => decide (j.owner < w.nextId))
    && w.log.all (fun e => decide (e.1 < w.nextId))

/-! ## Concrete environments -/

/-- A browser in which every capability is there: a page without advertisement
elements, all fonts measured alike, no media query matching but the monochrome baseline
and the bound `4`. -/
def fullEnv : Env :=
  { canvas := .ok (.str "data:image/png;base64,AAAA")
    webglContext := .ok none
    document := some
      { body := some (fun _ => 0)
        querySelectorAll := fun _ => []
        anchorSourceId := .undefined
        anchorSourceIdLower := .undefined
        touchEvent := false }
    screen := some
      { width := .num 1920, height := .num 1080, colorDepth := .num 24,
        availWidth := .num 1920, availHeight := .num 1040 }
    intl := some { timeZone := .str "UTC", locale := .str "en-US" }
    navigator :=
      { userAgent := .str "Mozilla/5.0"
        languages := .arr [.str "en-US"]
        language := .str "en-US"
        plugins := some []
        hardwareConcurrency := .num 8
        deviceMemory := .undefined
        cpuClass := .undefined
        platform := .str "Linux x86_64"
        pdfViewerEnabled := .bool true
        maxTouchPoints := .num 0
        vendor := .str "" }
    offlineAudio := none
    matchMedia := some (fun q => q == "(min-monochrome: 0)" || q == "(max-monochrome: 4)")
    openDatabase := .undefined
    localStorage := .ok (.obj [])
    sessionStorage := .error (.other "SecurityError")
    typedArrays := some .little
    applePaySession := .undefined
    ontouchstart := false
    chrome := .undefined
    safari := .undefined
    opera := .undefined
    math :=
      { acos := .dbl 0, asin := .dbl 0, atan := .dbl 0, sin := .dbl 0, cos := .dbl 0,
        tan := .dbl 0, exp := .dbl 0, log := .dbl 0 }
    audioContext := none
    now := .str "2025-01-01T00:00:00.000Z"
    roundDouble := fun q => q
    parseFloat := fun s => if s == "0" then .num 0 else .nan
    stringify := fun v => v
    fetch := fun _ _ => .ok .undefined }

/-- The environment of the repository's own test suite (jsdom): as `fullEnv`, but
without the global `matchMedia` and without a 2d canvas context. -/
def jsdomEnv : Env :=
  { fullEnv with
    canvas := .error (.typeError "cannot set properties of null (setting textBaseline)")
    matchMedia := none }

/-- A truth assignment of media queries in which the monochrome baseline holds and the
least bound satisfying the maximum predicate is `33`. -/
def deepMonochrome (q : String) : Bool :=
  q == "(min-monochrome: 0)" || q == "(max-monochrome: 33)"

/-- A browser as `fullEnv` in which the queries `(color-gamut: p3)`, `(color-gamut: srgb)`
and `(forced-colors: none)` match. -/
def gamutEnv : Env :=
  { fullEnv with
    matchMedia := some (fun q =>
      q == "(color-gamut: p3)" || q == "(color-gamut: srgb)" || q == "(forced-colors: none)") }

/-- A page on which `#ad` matches three elements, two of them invisible, `.ad` matches two
elements, one of them invisible, and the other selectors match nothing. -/
def adPage (selector : String) : List ComputedStyle :=
  if selector == "#ad" then
    [{ display := "none", visibility := "visible", opacity := "1" },
     { display := "block", visibility := "visible", opacity := "0" },
     { display := "block", visibility := "visible", opacity := "1" }]
  else if selector == ".ad" then
    [{ display := "block", visibility := "hidden", opacity := "1" },
     { display := "block", visibility := "visible", opacity := "1" }]
  else []

/-- A width measurement under which only `Arial` with the `serif` fallback is wider than
its generic family. -/
def arialOnly (fontFamily : String) : Int :=
  if fontFamily = "\"Arial\",serif" then 1 else 0

/-- The state of the load listener that the closure `owner` of the instance `k` registered,
after `n` load events: the listener is the only one of that closure and is still
registered, the pending continuations of the closure all wait for `record()`, the closure
called `record()` `n` times, and each of these calls has been followed by a `fetch` or is
still pending when `record()` resolves, and by no `fetch` when it rejects. -/
structure LoadInv (env : Env) (k : Knowu) (owner n : Nat) (v : World) : Prop where
  listeners : v.listeners.filter (fun l => l.callback.owner == owner)
    = [{ type := "load", callback := .recordThenSend owner k, once := false }]
  pending : ∀ j ∈ v.pending, j.owner = owner → j = Job.thenSend owner k (recordFingerprint env)
  records : recordsBy owner v.log = n
  resolved : ∀ r, recordFingerprint env = .ok r →
    fetchesBy owner v.log + v.pending.countP (fun j => j.owner == owner) = n
  rejected : ∀ e, recordFingerprint env = .error e → fetchesBy owner v.log = 0

/-! ## Theorems -/

/-- Reading `defaultWidths[base]` gives the measured width of each generic family. -/
theorem defaultWidths_lookup (getWidth : String → Int) (base : String) (h : base ∈ baseFonts) :
    (defaultWidths getWidth).lookup base = some (getWidth base) := by
  simp only [baseFonts, List.mem_cons, List.mem_singleton, List.not_mem_nil, or_false] at h
  rcases h with rfl | rfl | rfl <;>
    simp [defaultWidths, baseFonts, List.lookup, List.filter]

/-- A `forEach` that pushes the elements passing a test builds the filtered list. -/
theorem foldl_push_eq_filter {α : Type} (p : α → Bool) (xs acc : List α) :
    xs.foldl (fun available x => if p x then available ++ [x] else available) acc
      = acc ++ xs.filter p := by
  induction xs generalizing acc with
  | nil => simp
  | cons x xs ih =>
    simp only [List.foldl_cons, List.filter_cons]
    rw [ih]
    by_cases hx : p x = true <;> simp [hx]

/-- C4: for every width-measurement function, `getFontsFingerprint` returns exactly the
candidates of the fixed list, in that list's order and without duplicates, for which some
generic family `b` has the width of the candidate with fallback `b` different from the
width of `b` alone; a candidate whose width equals the generic width for all three
families is not reported. -/
theorem fontsAvailable_spec (getWidth : String → Int) :
    fontsAvailable getWidth
        = fonts.filter
            (fun font => decide (∃ b ∈ baseFonts, getWidth (fontWithFallback font b) ≠ getWidth b))
      ∧ (fontsAvailable getWidth).Sublist
          ["Arial", "Verdana", "Times New Roman", "Courier New", "Comic Sans MS", "Georgia",
           "Trebuchet MS"]
      ∧ (fontsAvailable getWidth).Nodup
      ∧ (∀ font, font ∈ fontsAvailable getWidth ↔
          font ∈ fonts ∧ ∃ b ∈ baseFonts, getWidth (fontWithFallback font b) ≠ getWidth b)
      ∧ (∀ font, (∀ b ∈ baseFonts, getWidth (fontWithFallback font b) = getWidth b) →
          font ∉ fontsAvailable getWidth)
      ∧ (∀ (env : Env) (doc : Document), env.document = some doc → doc.body = some getWidth →
          getFontsFingerprint env = .ok (JSVal.ofStrings (fontsAvailable getWidth))) := by
  have hfilter : fontsAvailable getWidth
      = fonts.filter
          (fun font => decide (∃ b ∈ baseFonts, getWidth (fontWithFallback font b) ≠ getWidth b)) := by
    unfold fontsAvailable
    rw [foldl_push_eq_filter, List.nil_append]
    apply List.filter_congr
    intro font _
    rw [Bool.eq_iff_iff]
    simp only [List.any_eq_true, decide_eq_true_eq]
    constructor
    · rintro ⟨b, hb, hd⟩
      refine ⟨b, hb, ?_⟩
      unfold detectedWith at hd
      rw [defaultWidths_lookup getWidth b hb] at hd
      simpa using hd
    · rintro ⟨b, hb, hd⟩
      refine ⟨b, hb, ?_⟩
      unfold detectedWith
      rw [defaultWidths_lookup getWidth b hb]
      simpa using hd
  have hnodup : fonts.Nodup := by decide
  refine ⟨hfilter, ?_, ?_, ?_, ?_, ?_⟩
  · rw [hfilter]; exact List.filter_sublist _
  · rw [hfilter]; exact hnodup.filter _
  · intro font
    rw [hfilter, List.mem_filter, decide_eq_true_eq]
  · intro font hall hmem
    rw [hfilter, List.mem_filter, decide_eq_true_eq] at hmem
    obtain ⟨_, b, hb, hne⟩ := hmem
    exact hne (hall b hb)
  · intro env doc hdoc hbody
    simp [getFontsFingerprint, hdoc, hbody]

/-- Witness of `fontsAvailable_spec`: when only `Arial` falling back to `serif` measures
differently, exactly `Arial` is reported. -/
theorem fontsAvailable_spec_witness : fontsAvailable arialOnly = ["Arial"] :=
  (fontsAvailable_spec arialOnly).1.trans (by decide)

/-! ### The aggregator -/

/-- A resolved `recordFingerprint` is the object literal, and every capability whose
absence is not caught was there. -/
theorem recordFingerprint_eq_ok {env : Env} {r : JSVal} (h : recordFingerprint env = .ok r) :
    ∃ doc getWidth scr options mm pcm flavors,
      env.document = some doc ∧ doc.body = some getWidth ∧ env.screen = some scr ∧
      env.intl = some options ∧ env.matchMedia = some mm ∧
      r = fingerprintObject env (JSVal.ofStrings (fontsAvailable getWidth)) scr options mm
            (JSVal.ofStrings (getDOMBlockers env.roundDouble env.parseFloat doc.querySelectorAll))
            pcm flavors := by
  unfold recordFingerprint at h
  cases hdoc : env.document with
  | none => simp [getFontsFingerprint, hdoc] at h
  | some doc =>
    cases hbody : doc.body with
    | none => simp [getFontsFingerprint, hdoc, hbody] at h
    | some getWidth =>
      cases hscr : env.screen with
      | none => simp [getFontsFingerprint, hdoc, hbody, getScreen, hscr] at h
      | some scr =>
        cases hintl : env.intl with
        | none =>
          simp [getFontsFingerprint, hdoc, hbody, getScreen, hscr, getDateTimeOptions, hintl] at h
        | some options =>
          cases hmm : env.matchMedia with
          | none =>
            simp [getFontsFingerprint, hdoc, hbody, getScreen, hscr, getDateTimeOptions, hintl,
              getMatchMedia, hmm] at h
          | some mm =>
            simp only [getFontsFingerprint, hdoc, hbody, getScreen, hscr, getDateTimeOptions,
              hintl, getMatchMedia, hmm, getDOMBlockersIn, privateClickMeasurement] at h
            cases hfl : vendorFlavors env with
            | error e => simp [hfl] at h
            | ok flavors =>
              simp only [hfl, Except.ok.injEq] at h
              exact ⟨doc, getWidth, scr, options, mm, _, flavors, rfl, hbody, rfl, rfl, rfl, h.symm⟩

/-- A resolved record is an object, hence truthy. -/
theorem recordFingerprint_truthy {env : Env} {r : JSVal} (h : recordFingerprint env = .ok r) :
    r.truthy = true := by
  obtain ⟨_, _, _, _, _, _, _, _, _, _, _, _, rfl⟩ := recordFingerprint_eq_ok h
  rfl

/-- A resolved record has every signal key, in source order. -/
theorem recordFingerprint_keys {env : Env} {r : JSVal} (h : recordFingerprint env = .ok r) :
    r.keys = signalKeys := by
  obtain ⟨_, _, _, _, _, _, _, _, _, _, _, _, rfl⟩ := recordFingerprint_eq_ok h
  rfl

/-- Without the global `matchMedia` the aggregator never resolves. -/
theorem recordFingerprint_needs_matchMedia (env : Env) (h : env.matchMedia = none) (r : JSVal) :
    recordFingerprint env ≠ .ok r := by
  intro hr
  obtain ⟨_, _, _, _, mm, _, _, _, _, _, _, hmm, _⟩ := recordFingerprint_eq_ok hr
  rw [h] at hmm
  cases hmm

/-- C3: in the environment of the repository's test suite, where the global `matchMedia`
is missing, `record()` does not resolve to an object with every signal key: the promise
rejects with `ReferenceError: matchMedia is not defined`. -/
theorem record_rejects_in_jsdom :
    recordFingerprint jsdomEnv = .error (.referenceError "matchMedia")
      ∧ ∀ (self : Knowu) (log : List Effect),
          (self.record jsdomEnv log).1 = .error (.referenceError "matchMedia") :=
  ⟨rfl, fun _ _ => rfl⟩

/-! ### Storage probes -/

/-- C10: the `localStorage` and `sessionStorage` fields of the record are `true` whenever
reading the storage object throws, are `false` only when the read succeeds with a falsy
value, and are never `null`. -/
theorem storage_fields (env : Env) (r : JSVal) (h : recordFingerprint env = .ok r) :
    ((∃ e, env.localStorage = .error e) → r.getProp "localStorage" = .bool true)
      ∧ (r.getProp "localStorage" = .bool false ↔
          ∃ v, env.localStorage = .ok v ∧ v.truthy = false)
      ∧ r.getProp "localStorage" ≠ .null
      ∧ ((∃ e, env.sessionStorage = .error e) → r.getProp "sessionStorage" = .bool true)
      ∧ (r.getProp "sessionStorage" = .bool false ↔
          ∃ v, env.sessionStorage = .ok v ∧ v.truthy = false)
      ∧ r.getProp "sessionStorage" ≠ .null := by
  obtain ⟨_, _, _, _, _, _, _, _, _, _, _, _, rfl⟩ := recordFingerprint_eq_ok h
  have hl : ∀ a b c d e f g, (fingerprintObject env a b c d e f g).getProp "localStorage"
      = storageFlag env.localStorage := fun _ _ _ _ _ _ _ => rfl
  have hs : ∀ a b c d e f g, (fingerprintObject env a b c d e f g).getProp "sessionStorage"
      = storageFlag env.sessionStorage := fun _ _ _ _ _ _ _ => rfl
  rw [hl, hs]
  have key : ∀ read : Except JSError JSVal,
      ((∃ e, read = .error e) → storageFlag read = .bool true)
        ∧ (storageFlag read = .bool false ↔ ∃ v, read = .ok v ∧ v.truthy = false)
        ∧ storageFlag read ≠ .null := by
    intro read
    cases read with
    | error e => simp [storageFlag]
    | ok v => simp [storageFlag]
  exact ⟨(key _).1, (key _).2.1, (key _).2.2, (key _).1, (key _).2.1, (key _).2.2⟩

/-- Witness of `storage_fields`: in `fullEnv` the record resolves, reading `sessionStorage`
throws and the field is `true`. -/
theorem storage_fields_witness :
    ∃ r, recordFingerprint fullEnv = .ok r ∧ r.getProp "sessionStorage" = .bool true :=
  ⟨_, rfl, (storage_fields fullEnv _ rfl).2.2.2.1 ⟨_, rfl⟩⟩

/-! ### Byte-order probe -/

/-- C9: the `architecture` field does not depend on the byte order of the host: on a
little-endian and on a big-endian host alike, the word read back through `u32[0]` after
`f32[0] = 1.0` is `0x3F800000`, which is not zero, so the field is `"little"` whenever
typed arrays are available, and it is never `"big"`. -/
theorem architecture_little (env : Env) (r : JSVal) (h : recordFingerprint env = .ok r) :
    (∀ e : Endian, architectureWord e = 0x3F800000 ∧ architectureWord e ≠ 0)
      ∧ (∀ e : Endian, env.typedArrays = some e → r.getProp "architecture" = .str "little")
      ∧ r.getProp "architecture" ≠ .str "big" := by
  obtain ⟨_, _, _, _, _, _, _, _, _, _, _, _, rfl⟩ := recordFingerprint_eq_ok h
  have hf : ∀ a b c d e f g, (fingerprintObject env a b c d e f g).getProp "architecture"
      = architecture env.typedArrays := fun _ _ _ _ _ _ _ => rfl
  rw [hf]
  have hword : ∀ e : Endian, architectureWord e = 0x3F800000 := by
    intro e
    cases e <;> decide
  have hlittle : ∀ e : Endian, architecture (some e) = .str "little" := by
    intro e
    simp [architecture, hword e]
  refine ⟨fun e => ⟨hword e, by rw [hword e]; decide⟩, ?_, ?_⟩
  · intro e he
    rw [he, hlittle e]
  · cases hta : env.typedArrays with
    | none => simp [architecture]
    | some e =>
      rw [hlittle e]
      intro hbig
      injection hbig with hs
      exact absurd hs (by decide)

/-- Witness of `architecture_little`: in `fullEnv` the record resolves and its
`architecture` field is `"little"`. -/
theorem architecture_little_witness :
    ∃ r, recordFingerprint fullEnv = .ok r ∧ r.getProp "architecture" = .str "little" :=
  ⟨_, rfl, (architecture_little fullEnv _ rfl).2.1 Endian.little rfl⟩

/-! ### Preference probes -/

/-- C5: for every truth assignment `mm` of the media queries, each of the fields
`colorGamut`, `contrast`, `forcedColors`, `invertedColors`, `reducedMotion` and
`reducedTransparency` of the record is the label of the first predicate, in the field's
fixed order, that matches, whatever the later predicates do, and it is `null` exactly when
no predicate of the field matches. -/
theorem preference_fields (env : Env) (r : JSVal) (mm : String → Bool)
    (h : recordFingerprint env = .ok r) (hmm : env.matchMedia = some mm) :
    (r.getProp "colorGamut"
          = firstMatch mm [("(color-gamut: rec2020)", .str "rec2020"),
              ("(color-gamut: p3)", .str "p3"), ("(color-gamut: srgb)", .str "srgb")]
        ∧ (r.getProp "colorGamut" = .null ↔
            mm "(color-gamut: rec2020)" = false ∧ mm "(color-gamut: p3)" = false
              ∧ mm "(color-gamut: srgb)" = false))
      ∧ (r.getProp "contrast"
          = firstMatch mm [("(prefers-contrast: more)", .str "more"),
              ("(prefers-contrast: less)", .str "less"),
              ("(prefers-contrast: no-preference)", .str "none")]
        ∧ (r.getProp "contrast" = .null ↔
            mm "(prefers-contrast: more)" = false ∧ mm "(prefers-contrast: less)" = false
              ∧ mm "(prefers-contrast: no-preference)" = false))
      ∧ (r.getProp "forcedColors"
          = firstMatch mm [("(forced-colors: active)", .bool true),
              ("(forced-colors: none)", .bool false)]
        ∧ (r.getProp "forcedColors" = .null ↔
            mm "(forced-colors: active)" = false ∧ mm "(forced-colors: none)" = false))
      ∧ (r.getProp "invertedColors"
          = firstMatch mm [("(inverted-colors: inverted)", .bool true),
              ("(inverted-colors: none)", .bool false)]
        ∧ (r.getProp "invertedColors" = .null ↔
            mm "(inverted-colors: inverted)" = false ∧ mm "(inverted-colors: none)" = false))
      ∧ (r.getProp "reducedMotion"
          = firstMatch mm [("(prefers-reduced-motion: reduce)", .bool true),
              ("(prefers-reduced-motion: no-preference)", .bool false)]
        ∧ (r.getProp "reducedMotion" = .null ↔
            mm "(prefers-reduced-motion: reduce)" = false
              ∧ mm "(prefers-reduced-motion: no-preference)" = false))
      ∧ (r.getProp "reducedTransparency"
          = firstMatch mm [("(prefers-reduced-transparency: reduce)", .bool true),
              ("(prefers-reduced-transparency: no-preference)", .bool false)]
        ∧ (r.getProp "reducedTransparency" = .null ↔
            mm "(prefers-reduced-transparency: reduce)" = false
              ∧ mm "(prefers-reduced-transparency: no-preference)" = false)) := by
  obtain ⟨_, _, _, _, mm', _, _, _, _, _, _, hmm', rfl⟩ := recordFingerprint_eq_ok h
  rw [hmm] at hmm'
  cases hmm'
  have h1 : ∀ a b c e f g, (fingerprintObject env a b c mm e f g).getProp "colorGamut"
      = colorGamut mm := fun _ _ _ _ _ _ => rfl
  have h2 : ∀ a b c e f g, (fingerprintObject env a b c mm e f g).getProp "contrast"
      = contrast mm := fun _ _ _ _ _ _ => rfl
  have h3 : ∀ a b c e f g, (fingerprintObject env a b c mm e f g).getProp "forcedColors"
      = forcedColors mm := fun _ _ _ _ _ _ => rfl
  have h4 : ∀ a b c e f g, (fingerprintObject env a b c mm e f g).getProp "invertedColors"
      = invertedColors mm := fun _ _ _ _ _ _ => rfl
  have h5 : ∀ a b c e f g, (fingerprintObject env a b c mm e f g).getProp "reducedMotion"
      = reducedMotion mm := fun _ _ _ _ _ _ => rfl
  have h6 : ∀ a b c e f g, (fingerprintObject env a b c mm e f g).getProp "reducedTransparency"
      = reducedTransparency mm := fun _ _ _ _ _ _ => rfl
  rw [h1, h2, h3, h4, h5, h6]
  refine ⟨⟨?_, ?_⟩, ⟨?_, ?_⟩, ⟨?_, ?_⟩, ⟨?_, ?_⟩, ⟨?_, ?_⟩, ⟨?_, ?_⟩⟩
  · rfl
  · unfold colorGamut
    cases mm "(color-gamut: rec2020)" <;> cases mm "(color-gamut: p3)" <;>
      cases mm "(color-gamut: srgb)" <;> simp
  · rfl
  · unfold contrast
    cases mm "(prefers-contrast: more)" <;> cases mm "(prefers-contrast: less)" <;>
      cases mm "(prefers-contrast: no-preference)" <;> simp
  · rfl
  · unfold forcedColors
    cases mm "(forced-colors: active)" <;> cases mm "(forced-colors: none)" <;> simp
  · rfl
  · unfold invertedColors
    cases mm "(inverted-colors: inverted)" <;> cases mm "(inverted-colors: none)" <;> simp
  · rfl
  · unfold reducedMotion
    cases mm "(prefers-reduced-motion: reduce)" <;>
      cases mm "(prefers-reduced-motion: no-preference)" <;> simp
  · rfl
  · unfold reducedTransparency
    cases mm "(prefers-reduced-transparency: reduce)" <;>
      cases mm "(prefers-reduced-transparency: no-preference)" <;> simp

/-- Witness of `preference_fields`: in `gamutEnv` the record resolves; `p3` and `srgb`
both match and the field is the first of them, and no contrast query matches. -/
theorem preference_fields_witness :
    ∃ r, recordFingerprint gamutEnv = .ok r ∧ r.getProp "colorGamut" = .str "p3"
      ∧ r.getProp "contrast" = .null ∧ r.getProp "forcedColors" = .bool false :=
  ⟨_, rfl,
    ((preference_fields gamutEnv _ _ rfl rfl).1.1).trans rfl,
    ((preference_fields gamutEnv _ _ rfl rfl).2.1.1).trans rfl,
    ((preference_fields gamutEnv _ _ rfl rfl).2.2.1.1).trans rfl⟩

/-! ### Monochrome probe -/

/-- The loop returns `null` when no bound it visits satisfies the maximum predicate. -/
theorem monochromeLoop_none (mm : String → Bool) (fuel i : Nat)
    (h : ∀ j, i ≤ j → j < i + fuel → mm (maxMonochromeQuery j) = false) :
    monochromeLoop mm i fuel = .null := by
  induction fuel generalizing i with
  | zero => rfl
  | succ fuel ih =>
    rw [monochromeLoop, h i (Nat.le_refl i) (by omega)]
    simp only [Bool.false_eq_true, if_false]
    exact ih (i + 1) (fun j h1 h2 => h j (by omega) (by omega))

/-- The loop returns the first bound it visits that satisfies the maximum predicate. -/
theorem monochromeLoop_first (mm : String → Bool) (fuel i k : Nat) (hik : i ≤ k)
    (hk : k < i + fuel) (hsat : mm (maxMonochromeQuery k) = true)
    (hmin : ∀ j, i ≤ j → j < k → mm (maxMonochromeQuery j) = false) :
    monochromeLoop mm i fuel = .num (k : Int) := by
  induction fuel generalizing i with
  | zero => omega
  | succ fuel ih =>
    rw [monochromeLoop]
    by_cases hi : i = k
    · subst hi
      simp [hsat]
    · rw [hmin i (Nat.le_refl i) (by omega)]
      simp only [Bool.false_eq_true, if_false]
      exact ih (i + 1) (by omega) (by omega) (fun j h1 h2 => hmin j (by omega) h2)

/-- C6 (counterexample): with the baseline predicate satisfied and the maximum-bound
predicate first satisfied at bound `33`, the probe returns `null`, not the least
satisfied bound. -/
theorem monochrome_misses_bound_33 :
    deepMonochrome "(min-monochrome: 0)" = true
      ∧ deepMonochrome (maxMonochromeQuery 33) = true
      ∧ (∀ j, j < 33 → deepMonochrome (maxMonochromeQuery j) = false)
      ∧ monochrome deepMonochrome = .null
      ∧ monochrome deepMonochrome ≠ .num 33 := by
  refine ⟨by decide, by decide, by decide, rfl, ?_⟩
  intro h
  have h2 : monochrome deepMonochrome = .null := rfl
  rw [h2] at h
  cases h

/-- C6 (amended): the `monochrome` field of the record is `null` when the baseline
predicate `(min-monochrome: 0)` is unsatisfied; otherwise it is the least bound `i` with
`0 ≤ i ≤ 32` for which `(max-monochrome: i)` is satisfied, and `null` when no bound up to
`32` satisfies it. In particular, when the predicate is first satisfied at `4` the field
is `4`. -/
theorem monochrome_field (env : Env) (r : JSVal) (mm : String → Bool)
    (h : recordFingerprint env = .ok r) (hmm : env.matchMedia = some mm) :
    (mm "(min-monochrome: 0)" = false → r.getProp "monochrome" = .null)
      ∧ (mm "(min-monochrome: 0)" = true →
          ∀ i, i ≤ 32 → mm (maxMonochromeQuery i) = true →
            (∀ j, j < i → mm (maxMonochromeQuery j) = false) →
            r.getProp "monochrome" = .num (i : Int))
      ∧ (mm "(min-monochrome: 0)" = true →
          (∀ i, i ≤ 32 → mm (maxMonochromeQuery i) = false) →
          r.getProp "monochrome" = .null)
      ∧ (mm "(min-monochrome: 0)" = true → mm (maxMonochromeQuery 4) = true →
          (∀ j, j < 4 → mm (maxMonochromeQuery j) = false) →
          r.getProp "monochrome" = .num 4) := by
  obtain ⟨_, _, _, _, mm', _, _, _, _, _, _, hmm', rfl⟩ := recordFingerprint_eq_ok h
  rw [hmm] at hmm'
  cases hmm'
  have hf : ∀ a b c e f g, (fingerprintObject env a b c mm e f g).getProp "monochrome"
      = monochrome mm := fun _ _ _ _ _ _ => rfl
  rw [hf]
  have hfirst : mm "(min-monochrome: 0)" = true →
      ∀ i, i ≤ 32 → mm (maxMonochromeQuery i) = true →
        (∀ j, j < i → mm (maxMonochromeQuery j) = false) →
        monochrome mm = .num (i : Int) := by
    intro hbase i hi hsat hmin
    unfold monochrome
    rw [hbase]
    simp only [Bool.not_true, Bool.false_eq_true, if_false]
    exact monochromeLoop_first mm 33 0 i (Nat.zero_le i) (by omega) hsat (fun j _ hj => hmin j hj)
  refine ⟨?_, hfirst, ?_, ?_⟩
  · intro hbase
    unfold monochrome
    simp [hbase]
  · intro hbase hnone
    unfold monochrome
    rw [hbase]
    simp only [Bool.not_true, Bool.false_eq_true, if_false]
    exact monochromeLoop_none mm 33 0 (fun j _ hj => hnone j (by omega))
  · intro hbase hsat hmin
    exact hfirst hbase 4 (by omega) hsat hmin

/-- Witness of `monochrome_field`: in `fullEnv` the baseline holds, the maximum-bound
predicate is first satisfied at `4`, and the field is `4`. -/
theorem monochrome_field_witness :
    ∃ r, recordFingerprint fullEnv = .ok r ∧ r.getProp "monochrome" = .num 4 :=
  ⟨_, rfl, (monochrome_field fullEnv _ _ rfl rfl).2.2.2 (by decide) (by decide) (by decide)⟩

/-! ### DOM-blocker probe -/

/-- The counter of the `forEach` is the number of elements passing the test. -/
theorem foldl_count_eq_countP {α : Type} (p : α → Bool) (xs : List α) (start : Nat) :
    xs.foldl (fun hidden x => if p x then hidden + 1 else hidden) start
      = start + xs.countP p := by
  induction xs generalizing start with
  | nil => simp
  | cons x xs ih =>
    simp only [List.foldl_cons, List.countP_cons]
    rw [ih]
    by_cases hx : p x = true
    · simp [hx]
      omega
    · simp [hx]

/-- The counter `hidden` is the number of matched elements rendered invisible. -/
theorem countHidden_eq_countP (parseFloat : String → JSVal) (elems : List ComputedStyle) :
    countHidden parseFloat elems = elems.countP (isHidden parseFloat) := by
  unfold countHidden
  rw [foldl_count_eq_countP, Nat.zero_add]

/-- For fewer than `2 ^ 32` matches, the rounded quotient exceeds `0.5` exactly when twice
the hidden count exceeds the total: a rounding that is monotone and leaves the doubles
`0.5` and `0.5 + 2 ^ (-53)` (its successor) fixed cannot move the quotient across `0.5`. -/
theorem moreThanHalf_iff (roundDouble : ℚ → ℚ) (hmono : Monotone roundDouble)
    (hhalf : roundDouble (1 / 2) = 1 / 2)
    (hnext : roundDouble (1 / 2 + 1 / 2 ^ 53) = 1 / 2 + 1 / 2 ^ 53)
    (hidden total : Nat) (htotal : total < 2 ^ 32) :
    moreThanHalf roundDouble hidden total = true ↔ 0 < total ∧ total < 2 * hidden := by
  unfold moreThanHalf
  rcases Nat.eq_zero_or_pos total with h0 | hpos
  · subst h0
    simp
  · have hposQ : (0 : ℚ) < (total : ℚ) := by exact_mod_cast hpos
    have htotN : total < 4294967296 := htotal
    have htotQ : (total : ℚ) < 4294967296 := by exact_mod_cast htotN
    have hne : total ≠ 0 := by omega
    simp only [bne_iff_ne, ne_eq, hne, not_false_eq_true, Bool.and_eq_true, decide_eq_true_eq,
      true_and, hpos, gt_iff_lt]
    constructor
    · intro hgt
      by_contra hle
      have hle2 : 2 * hidden ≤ total := by omega
      have hleQ : (2 : ℚ) * (hidden : ℚ) ≤ (total : ℚ) := by exact_mod_cast hle2
      have hq : (hidden : ℚ) / (total : ℚ) ≤ 1 / 2 := by
        rw [div_le_iff₀ hposQ]
        linarith
      have := hmono hq
      rw [hhalf] at this
      exact absurd hgt (not_lt.mpr this)
    · intro hlt
      have hlt2 : total + 1 ≤ 2 * hidden := by omega
      have hltQ : (total : ℚ) + 1 ≤ 2 * (hidden : ℚ) := by exact_mod_cast hlt2
      have hq : (1 / 2 + 1 / 2 ^ 53 : ℚ) ≤ (hidden : ℚ) / (total : ℚ) := by
        rw [le_div_iff₀ hposQ]
        norm_num
        linarith
      have := hmono hq
      rw [hnext] at this
      have hstep : (1 / 2 : ℚ) < 1 / 2 + 1 / 2 ^ 53 := by norm_num
      exact lt_of_lt_of_le hstep this

/-- C7: for every document, `getDOMBlockers` returns, in the order of its fixed selector
list, exactly the selectors that match at least one element and for which the number of
matched elements rendered invisible (display `none`, visibility `hidden`, or opacity zero)
is more than half of the matches (`2 * hidden > total`); a selector with no match, or with
exactly half of its matches invisible, is not reported. The quotient is rounded to a
double by `roundDouble`, and a match list has fewer than `2 ^ 32` elements. -/
theorem getDOMBlockers_spec (roundDouble : ℚ → ℚ) (parseFloat : String → JSVal)
    (querySelectorAll : String → List ComputedStyle)
    (hmono : Monotone roundDouble) (hhalf : roundDouble (1 / 2) = 1 / 2)
    (hnext : roundDouble (1 / 2 + 1 / 2 ^ 53) = 1 / 2 + 1 / 2 ^ 53)
    (hlen : ∀ s, (querySelectorAll s).length < 2 ^ 32) :
    getDOMBlockers roundDouble parseFloat querySelectorAll
        = ["#ad", ".ad", "[id*='ad-']", "[class*='ad_']", "[class*='advert']"].filter
            (fun s => decide (0 < (querySelectorAll s).length
              ∧ (querySelectorAll s).length
                  < 2 * (querySelectorAll s).countP (isHidden parseFloat)))
      ∧ (∀ s, s ∈ getDOMBlockers roundDouble parseFloat querySelectorAll ↔
          s ∈ selectors ∧ 0 < (querySelectorAll s).length
            ∧ (querySelectorAll s).length
                < 2 * (querySelectorAll s).countP (isHidden parseFloat))
      ∧ (∀ s, (querySelectorAll s).length = 0 →
          s ∉ getDOMBlockers roundDouble parseFloat querySelectorAll)
      ∧ (∀ s, 2 * (querySelectorAll s).countP (isHidden parseFloat)
            = (querySelectorAll s).length →
          s ∉ getDOMBlockers roundDouble parseFloat querySelectorAll)
      ∧ (∀ style, isHidden parseFloat style = true ↔
          style.display = "none" ∨ style.visibility = "hidden"
            ∨ (parseFloat style.opacity).isZero = true) := by
  have hfilter : getDOMBlockers roundDouble parseFloat querySelectorAll
      = selectors.filter
          (fun s => decide (0 < (querySelectorAll s).length
            ∧ (querySelectorAll s).length
                < 2 * (querySelectorAll s).countP (isHidden parseFloat))) := by
    unfold getDOMBlockers
    have hbody : (fun (blocked : List String) (selector : String) =>
        let elems := querySelectorAll selector
        if elems.length > 0 then
          if moreThanHalf roundDouble (countHidden parseFloat elems) elems.length then
            blocked ++ [selector]
          else blocked
        else blocked)
        = (fun blocked selector =>
            if (decide (0 < (querySelectorAll selector).length
                ∧ (querySelectorAll selector).length
                    < 2 * (querySelectorAll selector).countP (isHidden parseFloat))) = true
            then blocked ++ [selector] else blocked) := by
      funext blocked selector
      have hiff := moreThanHalf_iff roundDouble hmono hhalf hnext
        (countHidden parseFloat (querySelectorAll selector)) (querySelectorAll selector).length
        (hlen selector)
      rw [countHidden_eq_countP] at hiff
      simp only [decide_eq_true_eq, gt_iff_lt]
      by_cases hpos : 0 < (querySelectorAll selector).length
      · by_cases hm : moreThanHalf roundDouble
            (countHidden parseFloat (querySelectorAll selector))
            (querySelectorAll selector).length = true
        · have := (countHidden_eq_countP parseFloat (querySelectorAll selector)) ▸ hm
          rw [if_pos hpos, if_pos hm, if_pos (hiff.mp this)]
        · have hm2 : ¬ moreThanHalf roundDouble
              ((querySelectorAll selector).countP (isHidden parseFloat))
              (querySelectorAll selector).length = true := by
            rw [← countHidden_eq_countP]; exact hm
          rw [if_pos hpos, if_neg hm, if_neg (fun hc => hm2 (hiff.mpr hc))]
      · rw [if_neg hpos, if_neg (fun hc => hpos hc.1)]
    rw [hbody, foldl_push_eq_filter, List.nil_append]
  have hmem : ∀ s, s ∈ getDOMBlockers roundDouble parseFloat querySelectorAll ↔
      s ∈ selectors ∧ 0 < (querySelectorAll s).length
        ∧ (querySelectorAll s).length
            < 2 * (querySelectorAll s).countP (isHidden parseFloat) := by
    intro s
    rw [hfilter, List.mem_filter, decide_eq_true_eq]
  refine ⟨hfilter, hmem, ?_, ?_, ?_⟩
  · intro s h0 hs
    have := ((hmem s).mp hs).2.1
    omega
  · intro s hhalf2 hs
    have := ((hmem s).mp hs).2.2
    omega
  · intro style
    simp [isHidden, or_assoc]

/-- Witness of `getDOMBlockers_spec`: on `adPage`, with exact quotients, `#ad` (two of
three matches invisible) is reported, `.ad` (one of two) and the selectors without match
are not. -/
theorem getDOMBlockers_spec_witness :
    getDOMBlockers (fun q => q) fullEnv.parseFloat adPage = ["#ad"] :=
  (getDOMBlockers_spec (fun q => q) fullEnv.parseFloat adPage (fun _ _ hab => hab) rfl rfl
    (fun s => by unfold adPage; split_ifs <;> simp)).1.trans (by decide)

/-! ### The `Knowu` class -/

/-- What a successful construction gives: the instance holds the endpoint, and the world
gains one `load` listener (not a one-time one) exactly when `options.sendOnLoad` is truthy. -/
theorem construct_ok {u options : JSVal} {w w' : World} {k : Knowu}
    (hk : Knowu.construct u options w = .ok (k, w')) :
    k.baseUrl = u
      ∧ ((k.options.getProp "sendOnLoad").truthy = true →
          w' = { w with
            nextId := w.nextId + 1
            listeners := w.listeners ++
              [{ type := "load", callback := .recordThenSend w.nextId k, once := false }] })
      ∧ ((k.options.getProp "sendOnLoad").truthy = false → w' = w) := by
  unfold Knowu.construct at hk
  cases options with
  | null => simp at hk
  | undefined =>
    simp only [JSVal.getProp, List.lookup, Option.getD, JSVal.truthy, Bool.false_eq_true,
      if_false, Except.ok.injEq, Prod.mk.injEq] at hk
    obtain ⟨rfl, rfl⟩ := hk
    simp [JSVal.getProp, JSVal.truthy]
  | obj fields =>
    simp only at hk
    split at hk
    · next ht =>
      simp only [Except.ok.injEq, Prod.mk.injEq] at hk
      obtain ⟨rfl, rfl⟩ := hk
      simp [ht]
    · next ht =>
      simp only [Except.ok.injEq, Prod.mk.injEq] at hk
      obtain ⟨rfl, rfl⟩ := hk
      simp [ht]
  | bool b =>
    simp only [JSVal.getProp, JSVal.truthy, Bool.false_eq_true, if_false, Except.ok.injEq,
      Prod.mk.injEq] at hk
    obtain ⟨rfl, rfl⟩ := hk
    simp [JSVal.getProp, JSVal.truthy]
  | num n =>
    simp only [JSVal.getProp, JSVal.truthy, Bool.false_eq_true, if_false, Except.ok.injEq,
      Prod.mk.injEq] at hk
    obtain ⟨rfl, rfl⟩ := hk
    simp [JSVal.getProp, JSVal.truthy]
  | nan =>
    simp only [JSVal.getProp, JSVal.truthy, Bool.false_eq_true, if_false, Except.ok.injEq,
      Prod.mk.injEq] at hk
    obtain ⟨rfl, rfl⟩ := hk
    simp [JSVal.getProp, JSVal.truthy]
  | dbl bits =>
    simp only [JSVal.getProp, JSVal.truthy, Bool.false_eq_true, if_false, Except.ok.injEq,
      Prod.mk.injEq] at hk
    obtain ⟨rfl, rfl⟩ := hk
    simp [JSVal.getProp, JSVal.truthy]
  | str s =>
    simp only [JSVal.getProp, JSVal.truthy, Bool.false_eq_true, if_false, Except.ok.injEq,
      Prod.mk.injEq] at hk
    obtain ⟨rfl, rfl⟩ := hk
    simp [JSVal.getProp, JSVal.truthy]
  | arr items =>
    simp only [JSVal.getProp, JSVal.truthy, Bool.false_eq_true, if_false, Except.ok.injEq,
      Prod.mk.injEq] at hk
    obtain ⟨rfl, rfl⟩ := hk
    simp [JSVal.getProp, JSVal.truthy]

/-- The method `send` with a truthy argument: one `fetch`, nothing else. -/
theorem send_truthy (env : Env) (k : Knowu) (r : JSVal) (log : List Effect)
    (hr : r.truthy = true) :
    k.send env r log
      = (env.fetch k.baseUrl (fetchInit env r),
         log ++ [Effect.fetchCall k.baseUrl (fetchInit env r)]) := by
  simp [Knowu.send, hr]

/-- C1: for every instance constructed with endpoint `u` and every supplied truthy record
`r`, `send(r)` issues exactly one `fetch` call, to `u`, with method `POST`, headers
`Content-Type: application/json` and body `JSON.stringify(r)`; `record()` is not invoked,
and the outcome of `fetch` is returned. -/
theorem send_supplied_record (env : Env) (u options r : JSVal) (w w' : World) (k : Knowu)
    (log : List Effect) (hk : Knowu.construct u options w = .ok (k, w'))
    (hr : r.truthy = true) :
    (k.send env r log).2
        = log ++ [Effect.fetchCall u
            { method := "POST", headers := [("Content-Type", "application/json")],
              body := env.stringify r, mode := "no-cors" }]
      ∧ (k.send env r []).2.countP Effect.isFetch = 1
      ∧ (k.send env r []).2.countP Effect.isRecord = 0
      ∧ (k.send env r log).1
        = env.fetch u
            { method := "POST", headers := [("Content-Type", "application/json")],
              body := env.stringify r, mode := "no-cors" } := by
  have hu := (construct_ok hk).1
  rw [send_truthy env k r log hr, send_truthy env k r [] hr, hu]
  refine ⟨rfl, ?_, ?_, rfl⟩
  · simp [Effect.isFetch]
  · simp [Effect.isRecord]

/-- Witness of `send_supplied_record`: the call of the repository's test, an instance for
`http://dummy-endpoint.test` and the record `{ test: "data" }`. -/
theorem send_supplied_record_witness :
    ∃ k w, Knowu.construct (.str "http://dummy-endpoint.test")
        (.obj [("sendOnLoad", .bool false)]) World.initial = .ok (k, w)
      ∧ (k.send fullEnv (.obj [("test", .str "data")]) []).2
        = [Effect.fetchCall (.str "http://dummy-endpoint.test")
            { method := "POST", headers := [("Content-Type", "application/json")],
              body := fullEnv.stringify (.obj [("test", .str "data")]), mode := "no-cors" }] :=
  ⟨_, _, rfl,
    (send_supplied_record fullEnv (.str "http://dummy-endpoint.test")
      (.obj [("sendOnLoad", .bool false)]) (.obj [("test", .str "data")]) World.initial _ _ []
      rfl rfl).1⟩

/-- When `record()` resolves to `r`, `send()` without argument calls `record()` once and
then `fetch` once, with the body `JSON.stringify(r)`; and in every environment it calls
`record()` exactly once. -/
theorem send_undefined_resolved (env : Env) (u options : JSVal) (w w' : World) (k : Knowu)
    (r : JSVal) (hk : Knowu.construct u options w = .ok (k, w'))
    (hrec : recordFingerprint env = .ok r) :
    (k.send env .undefined []).2
        = [Effect.recordCall,
           Effect.fetchCall u
            { method := "POST", headers := [("Content-Type", "application/json")],
              body := env.stringify r, mode := "no-cors" }]
      ∧ (∀ env' : Env, (k.send env' .undefined []).2.countP Effect.isRecord = 1) := by
  have hu := (construct_ok hk).1
  have hlog : (k.send env .undefined []).2
      = [Effect.recordCall, Effect.fetchCall u (fetchInit env r)] := by
    simp [Knowu.send, Knowu.record, JSVal.truthy, hrec, hu]
  refine ⟨hlog, ?_⟩
  intro env'
  cases hr : recordFingerprint env' with
  | error e => simp [Knowu.send, Knowu.record, JSVal.truthy, hr, Effect.isRecord]
  | ok r' => simp [Knowu.send, Knowu.record, JSVal.truthy, hr, Effect.isRecord]

/-- C2: in the environment of the repository's test suite, `send()` without argument
invokes `record()` once and then issues no `fetch` call at all: `record()` rejects with
`ReferenceError: matchMedia is not defined`, and `send` rejects with it. -/
theorem send_rejects_in_jsdom :
    ∃ k w, Knowu.construct (.str "http://dummy-endpoint.test")
        (.obj [("sendOnLoad", .bool false)]) World.initial = .ok (k, w)
      ∧ (k.send jsdomEnv .undefined []).2 = [Effect.recordCall]
      ∧ (k.send jsdomEnv .undefined []).2.countP Effect.isRecord = 1
      ∧ (k.send jsdomEnv .undefined []).2.countP Effect.isFetch = 0
      ∧ (k.send jsdomEnv .undefined []).1 = .error (.referenceError "matchMedia") :=
  ⟨_, _, rfl, rfl, rfl, rfl, rfl⟩

/-! ### The load listener -/

/-- The meaning of `World.wellFormed`. -/
theorem wellFormed_iff (w : World) :
    w.wellFormed = true ↔
      (∀ l ∈ w.listeners, l.callback.owner < w.nextId)
        ∧ (∀ j ∈ w.pending, j.owner < w.nextId) ∧ (∀ e ∈ w.log, e.1 < w.nextId) := by
  simp [World.wellFormed, List.all_eq_true, and_assoc]

/-- A callback calls `record()` once while it runs. -/
theorem callback_effects (env : Env) (cb : Callback) :
    cb.effects env = [Effect.recordCall] := by
  cases cb
  rfl

/-- The continuation of a callback belongs to the callback's closure. -/
theorem callback_job_owner (env : Env) (cb : Callback) : (cb.job env).owner = cb.owner := by
  cases cb
  rfl

/-- The continuations a continuation leaves behind belong to the same closure. -/
theorem job_next_owner (env : Env) (job j : Job) (h : j ∈ job.next env) :
    j.owner = job.owner := by
  cases job with
  | thenSend o self outcome =>
    cases outcome with
    | error e => simp [Job.next] at h
    | ok fp =>
      by_cases ht : fp.truthy = true
      · simp [Job.next, ht] at h
      · simp only [Job.next, ht, Bool.false_eq_true, if_false, List.mem_singleton] at h
        subst h
        rfl
  | resumeSend o self outcome => simp [Job.next] at h

/-- The listeners of an event run one after the other: each calls `record()` and leaves
its continuation behind. -/
theorem foldl_runCallback (env : Env) (ls : List Listener) (v : World) :
    ls.foldl (fun v l => runCallback env l.callback v) v
      = { v with
          log := v.log ++ ls.map (fun l => (l.callback.owner, Effect.recordCall))
          pending := v.pending ++ ls.map (fun l => l.callback.job env) } := by
  induction ls generalizing v with
  | nil => simp
  | cons l ls ih =>
    rw [List.foldl_cons, ih]
    simp [runCallback, callback_effects, List.append_assoc]

/-- One dispatched `load` event, spelled out. -/
theorem dispatchEvent_eq (env : Env) (type : String) (w : World) :
    dispatchEvent env type w
      = { nextId := w.nextId
          listeners := w.listeners.filter (fun l => !(l.type == type && l.once))
          pending := w.pending
            ++ (w.listeners.filter (fun l => l.type == type)).map (fun l => l.callback.job env)
          log := w.log
            ++ (w.listeners.filter (fun l => l.type == type)).map
                (fun l => (l.callback.owner, Effect.recordCall)) } := by
  unfold dispatchEvent
  rw [foldl_runCallback]

/-- Taking a continuation out of the pending ones removes exactly that one. -/
theorem pick_spec (i : Nat) (l : List Job) (job : Job) (rest : List Job)
    (h : pick i l = some (job, rest)) :
    job ∈ l ∧ (∀ x ∈ rest, x ∈ l)
      ∧ ∀ p : Job → Bool, l.countP p = rest.countP p + (if p job then 1 else 0) := by
  induction l generalizing i rest with
  | nil => simp [pick] at h
  | cons x xs ih =>
    cases i with
    | zero =>
      simp only [pick, Option.some.injEq, Prod.mk.injEq] at h
      obtain ⟨rfl, rfl⟩ := h
      refine ⟨List.mem_cons_self _ _, fun y hy => List.mem_cons_of_mem _ hy, ?_⟩
      intro p
      rw [List.countP_cons]
    | succ i =>
      simp only [pick] at h
      cases hp : pick i xs with
      | none => simp [hp] at h
      | some found =>
        obtain ⟨f, others⟩ := found
        simp only [hp, Option.some.injEq, Prod.mk.injEq] at h
        obtain ⟨rfl, rfl⟩ := h
        obtain ⟨h1, h2, h3⟩ := ih i others hp
        refine ⟨List.mem_cons_of_mem _ h1, ?_, ?_⟩
        · intro y hy
          rcases List.mem_cons.mp hy with rfl | hy
          · exact List.mem_cons_self _ _
          · exact List.mem_cons_of_mem _ (h2 y hy)
        · intro p
          rw [List.countP_cons, List.countP_cons, h3 p]
          omega

/-- Effects caused by another closure do not count for `owner`. -/
theorem countP_tagged_other (owner other : Nat) (q : Effect → Bool) (effects : List Effect)
    (h : other ≠ owner) :
    (effects.map (fun e => (other, e))).countP (fun e => e.1 == owner && q e.2) = 0 := by
  rw [List.countP_eq_zero]
  intro e he
  obtain ⟨x, _, rfl⟩ := List.mem_map.mp he
  simp [h]

/-- Right after the constructor registered the listener, nothing has happened yet. -/
theorem loadInv_construct (env : Env) (k : Knowu) (w : World) (hw : w.wellFormed = true) :
    LoadInv env k w.nextId 0
      { w with
        nextId := w.nextId + 1
        listeners := w.listeners ++
          [{ type := "load", callback := .recordThenSend w.nextId k, once := false }] } := by
  obtain ⟨hl, hp, he⟩ := (wellFormed_iff w).mp hw
  have hnone : w.listeners.filter (fun l => l.callback.owner == w.nextId) = [] := by
    rw [List.filter_eq_nil_iff]
    intro l hmem
    have := hl l hmem
    simp only [beq_iff_eq]
    omega
  have hpend : w.pending.countP (fun j => j.owner == w.nextId) = 0 := by
    rw [List.countP_eq_zero]
    intro j hmem
    have := hp j hmem
    simp only [beq_iff_eq]
    omega
  have hlog : ∀ q : Effect → Bool,
      w.log.countP (fun e => e.1 == w.nextId && q e.2) = 0 := by
    intro q
    rw [List.countP_eq_zero]
    intro e hmem
    have := he e hmem
    simp only [Bool.and_eq_true, beq_iff_eq, not_and]
    omega
  refine ⟨?_, ?_, ?_, ?_, ?_⟩
  · simp only [List.filter_append, hnone, List.nil_append]
    simp [List.filter, Callback.owner]
  · intro j hmem hown
    have := hp j hmem
    omega
  · exact hlog _
  · intro r _
    show fetchesBy w.nextId w.log + w.pending.countP (fun j => j.owner == w.nextId) = 0
    rw [hpend]
    exact hlog _
  · intro e _
    exact hlog _

/-- A `load` event adds one call of `record()` by the closure and one pending
continuation, and leaves the listener registered. -/
theorem loadInv_load (env : Env) (k : Knowu) (owner n : Nat) (v : World)
    (h : LoadInv env k owner n v) :
    LoadInv env k owner (n + 1) (dispatchEvent env "load" v) := by
  rw [dispatchEvent_eq]
  have hfired : (v.listeners.filter (fun l => l.type == "load")).filter
      (fun l => l.callback.owner == owner)
      = [{ type := "load", callback := .recordThenSend owner k, once := false }] := by
    rw [List.filter_filter]
    have hcomm : (fun l : Listener => (l.callback.owner == owner && l.type == "load"))
        = (fun l : Listener => (l.type == "load" && l.callback.owner == owner)) := by
      funext l
      exact Bool.and_comm _ _
    rw [hcomm, ← List.filter_filter, h.listeners]
    rfl
  have hcount : (v.listeners.filter (fun l => l.type == "load")).countP
      (fun l => l.callback.owner == owner) = 1 := by
    rw [List.countP_eq_length_filter, hfired]
    rfl
  refine ⟨?_, ?_, ?_, ?_, ?_⟩
  · show (v.listeners.filter (fun l => !(l.type == "load" && l.once))).filter
        (fun l => l.callback.owner == owner) = _
    rw [List.filter_filter]
    have hcomm : (fun l : Listener =>
          (l.callback.owner == owner && !(l.type == "load" && l.once)))
        = (fun l : Listener =>
          (!(l.type == "load" && l.once) && l.callback.owner == owner)) := by
      funext l
      exact Bool.and_comm _ _
    rw [hcomm, ← List.filter_filter, h.listeners]
    rfl
  · intro j hmem hown
    rcases List.mem_append.mp hmem with hold | hnew
    · exact h.pending j hold hown
    · obtain ⟨l, hl, rfl⟩ := List.mem_map.mp hnew
      rw [callback_job_owner] at hown
      have hl2 : l ∈ (v.listeners.filter (fun l => l.type == "load")).filter
          (fun l => l.callback.owner == owner) :=
        List.mem_filter.mpr ⟨hl, by simp [hown]⟩
      rw [hfired, List.mem_singleton] at hl2
      subst hl2
      rfl
  · show recordsBy owner (v.log ++ _) = n + 1
    unfold recordsBy
    rw [List.countP_append, List.countP_map]
    have h1 := h.records
    unfold recordsBy at h1
    rw [h1]
    have h2 : ((fun e : Nat × Effect => e.1 == owner && e.2.isRecord)
        ∘ fun l : Listener => (l.callback.owner, Effect.recordCall))
        = (fun l : Listener => l.callback.owner == owner) := by
      funext l
      simp [Effect.isRecord]
    rw [h2, hcount]
  · intro r hr
    show fetchesBy owner (v.log ++ _) + (v.pending ++ _).countP _ = n + 1
    unfold fetchesBy
    rw [List.countP_append, List.countP_append, List.countP_map, List.countP_map]
    have h1 := h.resolved r hr
    unfold fetchesBy at h1
    have h2 : ((fun e : Nat × Effect => e.1 == owner && e.2.isFetch)
        ∘ fun l : Listener => (l.callback.owner, Effect.recordCall))
        = (fun _ : Listener => false) := by
      funext l
      simp [Effect.isFetch]
    have h3 : ((fun j : Job => j.owner == owner) ∘ fun l : Listener => l.callback.job env)
        = (fun l : Listener => l.callback.owner == owner) := by
      funext l
      simp [callback_job_owner]
    have hz : (v.listeners.filter (fun l => l.type == "load")).countP (fun _ => false) = 0 := by
      rw [List.countP_eq_zero]
      intro _ _
      simp
    rw [h2, h3, hcount, hz]
    omega
  · intro e he
    show fetchesBy owner (v.log ++ _) = 0
    unfold fetchesBy
    rw [List.countP_append, List.countP_map]
    have h1 := h.rejected e he
    unfold fetchesBy at h1
    have h2 : ((fun e : Nat × Effect => e.1 == owner && e.2.isFetch)
        ∘ fun l : Listener => (l.callback.owner, Effect.recordCall))
        = (fun _ : Listener => false) := by
      funext l
      simp [Effect.isFetch]
    have hz : (v.listeners.filter (fun l => l.type == "load")).countP (fun _ => false) = 0 := by
      rw [List.countP_eq_zero]
      intro _ _
      simp
    rw [h1, h2, hz]

/-- Running a pending continuation keeps the state of the load listener: a continuation
of the closure turns into one `fetch` when `record()` resolved and into nothing when it
rejected, and the continuations of other closures do not count. -/
theorem loadInv_settle (env : Env) (k : Knowu) (owner n i : Nat) (v : World)
    (h : LoadInv env k owner n v) :
    LoadInv env k owner n (step env (.settle i) v) := by
  cases hp : pick i v.pending with
  | none =>
    have hs : step env (.settle i) v = v := by simp only [step, hp]
    rw [hs]
    exact h
  | some found =>
    obtain ⟨job, rest⟩ := found
    have hs : step env (.settle i) v = runJob env job { v with pending := rest } := by
      simp only [step, hp]
    rw [hs]
    obtain ⟨hmem, hsub, hcnt⟩ := pick_spec i v.pending job rest hp
    have hcount := hcnt (fun j => j.owner == owner)
    have hrec := h.records
    unfold recordsBy at hrec
    by_cases hown : job.owner = owner
    · have hjob := h.pending job hmem hown
      cases hr : recordFingerprint env with
      | error e =>
        have heff : job.effects env = [] := by rw [hjob, hr]; rfl
        have hnext : job.next env = [] := by rw [hjob, hr]; rfl
        refine ⟨h.listeners, ?_, ?_, ?_, ?_⟩
        · intro j hj hjo
          simp only [runJob, hnext, List.append_nil] at hj
          exact h.pending j (hsub j hj) hjo
        · simp only [runJob, heff, List.map_nil, List.append_nil]
          exact h.records
        · intro r hr2
          rw [hr] at hr2
          cases hr2
        · intro e2 _
          simp only [runJob, heff, List.map_nil, List.append_nil]
          exact h.rejected e hr
      | ok r =>
        have ht := recordFingerprint_truthy hr
        have heff : job.effects env = [Effect.fetchCall k.baseUrl (fetchInit env r)] := by
          rw [hjob, hr]
          simp [Job.effects, ht, send_truthy env k r [] ht]
        have hnext : job.next env = [] := by
          rw [hjob, hr]
          simp [Job.next, ht]
        refine ⟨h.listeners, ?_, ?_, ?_, ?_⟩
        · intro j hj hjo
          simp only [runJob, hnext, List.append_nil] at hj
          exact h.pending j (hsub j hj) hjo
        · show recordsBy owner (v.log ++ _) = n
          unfold recordsBy
          rw [heff, List.countP_append, hrec]
          simp [Effect.isRecord]
        · intro r2 hr2
          have h1 := h.resolved r (hr ▸ rfl)
          unfold fetchesBy at h1
          show fetchesBy owner (v.log ++ _) + (rest ++ _).countP _ = n
          unfold fetchesBy
          have hone : ([Effect.fetchCall k.baseUrl (fetchInit env r)].map
              (fun e => (job.owner, e))).countP (fun e => e.1 == owner && e.2.isFetch) = 1 := by
            simp [hown, Effect.isFetch]
          rw [heff, hnext, List.append_nil, List.countP_append, hone]
          simp only [hown, beq_self_eq_true, if_true] at hcount
          omega
        · intro e he
          rw [hr] at he
          cases he
    · have hne : (job.owner == owner) = false := by simp [hown]
      rw [hne] at hcount
      simp only [Bool.false_eq_true, if_false, Nat.add_zero] at hcount
      have hnextcount : (job.next env).countP (fun j => j.owner == owner) = 0 := by
        rw [List.countP_eq_zero]
        intro j hj
        rw [job_next_owner env job j hj]
        simp [hown]
      refine ⟨h.listeners, ?_, ?_, ?_, ?_⟩
      · intro j hj hjo
        rcases List.mem_append.mp hj with hold | hnew
        · exact h.pending j (hsub j hold) hjo
        · exact absurd ((job_next_owner env job j hnew).symm.trans hjo) hown
      · show recordsBy owner (v.log ++ _) = n
        unfold recordsBy
        rw [List.countP_append, hrec, countP_tagged_other owner job.owner Effect.isRecord _ hown]
        all_goals omega
      · intro r hr
        have h1 := h.resolved r hr
        unfold fetchesBy at h1
        show fetchesBy owner (v.log ++ _) + (rest ++ _).countP _ = n
        unfold fetchesBy
        rw [List.countP_append, List.countP_append, hnextcount,
          countP_tagged_other owner job.owner Effect.isFetch _ hown]
        omega
      · intro e he
        have h1 := h.rejected e he
        unfold fetchesBy at h1
        show fetchesBy owner (v.log ++ _) = 0
        unfold fetchesBy
        rw [List.countP_append, h1, countP_tagged_other owner job.owner Effect.isFetch _ hown]

/-- After any sequence of actions, the closure has called `record()` once per `load`
event in it. -/
theorem loadInv_run (env : Env) (k : Knowu) (owner : Nat) (actions : List Action) (n : Nat)
    (v : World) (h : LoadInv env k owner n v) :
    LoadInv env k owner (n + actions.countP Action.isLoad) (run env actions v) := by
  induction actions generalizing n v with
  | nil => simpa [run] using h
  | cons a actions ih =>
    have hrun : run env (a :: actions) v = run env actions (step env a v) := rfl
    rw [hrun]
    cases a with
    | load =>
      have h1 := ih (n + 1) (step env .load v) (loadInv_load env k owner n v h)
      have hc : (Action.load :: actions).countP Action.isLoad
          = actions.countP Action.isLoad + 1 := by
        simp [List.countP_cons, Action.isLoad]
      rw [hc]
      have he : n + (actions.countP Action.isLoad + 1)
          = n + 1 + actions.countP Action.isLoad := by omega
      rw [he]
      exact h1
    | settle i =>
      have h1 := ih n (step env (.settle i) v) (loadInv_settle env k owner n i v h)
      have hc : (Action.settle i :: actions).countP Action.isLoad
          = actions.countP Action.isLoad := by
        simp [List.countP_cons, Action.isLoad]
      rw [hc]
      exact h1

/-- The fresh world is well formed. -/
theorem initial_wellFormed : World.initial.wellFormed = true := rfl

/-- The constructor keeps the world well formed. -/
theorem construct_wellFormed {u options : JSVal} {w w' : World} {k : Knowu}
    (hk : Knowu.construct u options w = .ok (k, w')) (hw : w.wellFormed = true) :
    w'.wellFormed = true := by
  obtain ⟨_, hon, hoff⟩ := construct_ok hk
  cases ht : (k.options.getProp "sendOnLoad").truthy with
  | false => rw [hoff ht]; exact hw
  | true =>
    rw [hon ht]
    obtain ⟨hl, hp, he⟩ := (wellFormed_iff w).mp hw
    rw [wellFormed_iff]
    refine ⟨?_, ?_, ?_⟩
    · intro l hmem
      rcases List.mem_append.mp hmem with hold | hnew
      · exact Nat.lt_succ_of_lt (hl l hold)
      · rw [List.mem_singleton] at hnew
        subst hnew
        exact Nat.lt_succ_self _
    · intro j hmem
      exact Nat.lt_succ_of_lt (hp j hmem)
    · intro e hmem
      exact Nat.lt_succ_of_lt (he e hmem)

/-- Every action keeps the world well formed. -/
theorem step_wellFormed (env : Env) (a : Action) (w : World) (hw : w.wellFormed = true) :
    (step env a w).wellFormed = true := by
  obtain ⟨hl, hp, he⟩ := (wellFormed_iff w).mp hw
  cases a with
  | load =>
    show (dispatchEvent env "load" w).wellFormed = true
    rw [dispatchEvent_eq, wellFormed_iff]
    refine ⟨?_, ?_, ?_⟩
    · intro l hmem
      exact hl l (List.mem_filter.mp hmem).1
    · intro j hmem
      rcases List.mem_append.mp hmem with hold | hnew
      · exact hp j hold
      · obtain ⟨l, hlm, rfl⟩ := List.mem_map.mp hnew
        rw [callback_job_owner]
        exact hl l (List.mem_filter.mp hlm).1
    · intro e hmem
      rcases List.mem_append.mp hmem with hold | hnew
      · exact he e hold
      · obtain ⟨l, hlm, rfl⟩ := List.mem_map.mp hnew
        exact hl l (List.mem_filter.mp hlm).1
  | settle i =>
    cases hpick : pick i w.pending with
    | none =>
      have hs : step env (.settle i) w = w := by simp only [step, hpick]
      rw [hs]
      exact hw
    | some found =>
      obtain ⟨job, rest⟩ := found
      have hs : step env (.settle i) w = runJob env job { w with pending := rest } := by
        simp only [step, hpick]
      rw [hs]
      obtain ⟨hmem, hsub, _⟩ := pick_spec i w.pending job rest hpick
      rw [wellFormed_iff]
      refine ⟨hl, ?_, ?_⟩
      · intro j hj
        rcases List.mem_append.mp hj with hold | hnew
        · exact hp j (hsub j hold)
        · rw [job_next_owner env job j hnew]
          exact hp job hmem
      · intro e hmem2
        rcases List.mem_append.mp hmem2 with hold | hnew
        · exact he e hold
        · obtain ⟨x, _, rfl⟩ := List.mem_map.mp hnew
          exact hp job hmem

/-- Every sequence of actions keeps the world well formed. -/
theorem run_wellFormed (env : Env) (actions : List Action) (w : World)
    (hw : w.wellFormed = true) : (run env actions w).wellFormed = true := by
  induction actions generalizing w with
  | nil => exact hw
  | cons a actions ih => exact ih (step env a w) (step_wellFormed env a w hw)

/-- C8 (counterexample): an instance constructed with `sendOnLoad: true` in a fresh world
has one load listener, which is not a one-time listener: two load events make it call
`record()` twice and, once the promises have settled, `fetch` twice, whether the second
event comes before the first submission (record, record, fetch, fetch) or after it. -/
theorem load_listener_fires_twice :
    ∃ k w, Knowu.construct (.str "http://dummy-endpoint.test")
        (.obj [("sendOnLoad", .bool true)]) World.initial = .ok (k, w)
      ∧ w.listeners.length = 1
      ∧ w.listeners.map (fun l => l.once) = [false]
      ∧ recordsBy 0 (run fullEnv [.load, .load, .settle 0, .settle 0] w).log = 2
      ∧ fetchesBy 0 (run fullEnv [.load, .load, .settle 0, .settle 0] w).log = 2
      ∧ (run fullEnv [.load, .load, .settle 0, .settle 0] w).log.map
          (fun e => e.2.isFetch) = [false, false, true, true]
      ∧ recordsBy 0 (run fullEnv [.load, .settle 0, .load, .settle 0] w).log = 2
      ∧ fetchesBy 0 (run fullEnv [.load, .settle 0, .load, .settle 0] w).log = 2
      ∧ (run fullEnv [.load, .settle 0, .load, .settle 0] w).log.map
          (fun e => e.2.isFetch) = [false, true, false, true] :=
  ⟨_, _, rfl, rfl, rfl, rfl, rfl, rfl, rfl, rfl, rfl⟩

/-- C8 (amended): constructing an instance with a truthy `sendOnLoad`, in any well-formed
world, registers exactly one load listener for it, and the listener is not a one-time one:
it stays registered, and after every sequence of load events and settled promises the
instance has called `record()` exactly once per load event (`n` times for `n` events, once
for one event); when `record()` resolves, each of these calls is followed by exactly one
`fetch` once its promise has settled (so `n` submissions when nothing is pending), and
when `record()` rejects there is no `fetch`. Constructing with `sendOnLoad` false or absent
registers no listener and leaves the world as it was, so the instance never submits on its
own. -/
theorem construct_sendOnLoad (env : Env) (u options : JSVal) (w w' : World) (k : Knowu)
    (hw : w.wellFormed = true) (hk : Knowu.construct u options w = .ok (k, w')) :
    ((k.options.getProp "sendOnLoad").truthy = true →
        w'.listeners = w.listeners ++
            [{ type := "load", callback := .recordThenSend w.nextId k, once := false }]
          ∧ w'.pending = w.pending
          ∧ w'.log = w.log
          ∧ ∀ actions : List Action,
              (run env actions w').listeners.filter (fun l => l.callback.owner == w.nextId)
                  = [{ type := "load", callback := .recordThenSend w.nextId k, once := false }]
                ∧ recordsBy w.nextId (run env actions w').log = actions.countP Action.isLoad
                ∧ (∀ r, recordFingerprint env = .ok r →
                    fetchesBy w.nextId (run env actions w').log
                        + (run env actions w').pending.countP (fun j => j.owner == w.nextId)
                      = actions.countP Action.isLoad)
                ∧ (∀ r, recordFingerprint env = .ok r → (run env actions w').pending = [] →
                    fetchesBy w.nextId (run env actions w').log
                      = actions.countP Action.isLoad)
                ∧ (∀ e, recordFingerprint env = .error e →
                    fetchesBy w.nextId (run env actions w').log = 0))
      ∧ ((k.options.getProp "sendOnLoad").truthy = false → w' = w)
      ∧ (options = .obj [("sendOnLoad", .bool true)] →
          (k.options.getProp "sendOnLoad").truthy = true)
      ∧ (options = .obj [("sendOnLoad", .bool false)] → w' = w)
      ∧ (options = .undefined → w' = w) := by
  obtain ⟨_, hon, hoff⟩ := construct_ok hk
  refine ⟨?_, hoff, ?_, ?_, ?_⟩
  · intro ht
    have hw' := hon ht
    refine ⟨by rw [hw'], by rw [hw'], by rw [hw'], ?_⟩
    intro actions
    have hinv := loadInv_run env k w.nextId actions 0 w'
      (by rw [hw']; exact loadInv_construct env k w hw)
    rw [Nat.zero_add] at hinv
    refine ⟨hinv.listeners, hinv.records, hinv.resolved, ?_, hinv.rejected⟩
    intro r hr hnil
    have := hinv.resolved r hr
    rw [hnil] at this
    simpa using this
  · rintro rfl
    unfold Knowu.construct at hk
    simp only [JSVal.getProp, List.lookup] at hk
    simp only [beq_self_eq_true, Option.getD, JSVal.truthy, if_true, Except.ok.injEq,
      Prod.mk.injEq] at hk
    obtain ⟨rfl, _⟩ := hk
    rfl
  · rintro rfl
    unfold Knowu.construct at hk
    simp only [JSVal.getProp, List.lookup] at hk
    simp only [beq_self_eq_true, Option.getD, JSVal.truthy, Bool.false_eq_true, if_false,
      Except.ok.injEq, Prod.mk.injEq] at hk
    exact hk.2.symm
  · rintro rfl
    unfold Knowu.construct at hk
    simp only [JSVal.getProp, List.lookup, Option.getD, JSVal.truthy, Bool.false_eq_true,
      if_false, Except.ok.injEq, Prod.mk.injEq] at hk
    exact hk.2.symm

/-- Witness of `construct_sendOnLoad`: an instance constructed with `sendOnLoad: true` in
the fresh world has one load listener, and one load event in `fullEnv`, once the promise of
`record()` has settled, gives one call of `record()` and one `fetch`. -/
theorem construct_sendOnLoad_witness :
    ∃ k w, World.initial.wellFormed = true
      ∧ Knowu.construct (.str "http://dummy-endpoint.test")
          (.obj [("sendOnLoad", .bool true)]) World.initial = .ok (k, w)
      ∧ w.listeners = [{ type := "load", callback := .recordThenSend 0 k, once := false }]
      ∧ recordsBy 0 (run fullEnv [.load, .settle 0] w).log = 1
      ∧ fetchesBy 0 (run fullEnv [.load, .settle 0] w).log = 1 :=
  ⟨_, _, rfl, rfl,
    ((construct_sendOnLoad fullEnv (.str "http://dummy-endpoint.test")
      (.obj [("sendOnLoad", .bool true)]) World.initial _ _ rfl rfl).1 rfl).1,
    (((construct_sendOnLoad fullEnv (.str "http://dummy-endpoint.test")
      (.obj [("sendOnLoad", .bool true)]) World.initial _ _ rfl rfl).1 rfl).2.2.2
        [.load, .settle 0]).2.1,
    (((construct_sendOnLoad fullEnv (.str "http://dummy-endpoint.test")
      (.obj [("sendOnLoad", .bool true)]) World.initial _ _ rfl rfl).1 rfl).2.2.2
        [.load, .settle 0]).2.2.2.1 _ rfl rfl⟩

/-- Two instances with `sendOnLoad: true` and one load event: both listeners call
`record()` during the dispatch, and the two submissions follow when the promises settle. -/
theorem two_instances_one_load :
    ∃ k₁ w₁ k₂ w₂,
      Knowu.construct (.str "http://a.test") (.obj [("sendOnLoad", .bool true)]) World.initial
          = .ok (k₁, w₁)
        ∧ Knowu.construct (.str "http://b.test") (.obj [("sendOnLoad", .bool true)]) w₁
          = .ok (k₂, w₂)
        ∧ (run fullEnv [.load, .settle 0, .settle 0] w₂).log.map
            (fun e => (e.1, e.2.isFetch)) = [(0, false), (1, false), (0, true), (1, true)]
        ∧ (run fullEnv [.load, .settle 0, .settle 0] w₂).pending.length = 0 :=
  ⟨_, _, _, _, rfl, rfl, rfl, rfl⟩

end KnowuJS
